import Mathlib

/-!
Verification of the YAS Remote Relay server (relay server, auth module,
session manager, file-transfer engine) against its specification.

The JavaScript sources are shallowly embedded:
* JS `Map` objects become association lists (`List (κ × β)`) with
  `Map.set` / `Map.get` / `Map.delete` modelled by `setA` / `lookupA` /
  `eraseA` (JS maps keep insertion order; `set` on an existing key keeps
  the original position).
* JS `Set` objects become duplicate-free lists in insertion order
  (`addS` models `Set.add`, `delS` models `Set.delete`).
* `Date.now()` becomes an explicit `now : Nat` argument; byte buffers
  become `List Nat` (each element < 256); base64 strings become
  `List Char`.
* outbound `ws.send(...)` / `ws.close()` calls become an explicit list of
  `Out` actions returned by each handler.
-/

/-- JS `Map.prototype.get`: first binding of the key, if any. -/
def lookupA {κ β : Type} [DecidableEq κ] : List (κ × β) → κ → Option β
  | [], _ => none
  | (k', v) :: rest, k => if k' = k then some v else lookupA rest k

/-- JS `Map.prototype.set`: replace the binding in place if the key is
present, otherwise append the new binding at the end. -/
def setA {κ β : Type} [DecidableEq κ] : List (κ × β) → κ → β → List (κ × β)
  | [], k, v => [(k, v)]
  | (k', v') :: rest, k, v =>
    if k' = k then (k, v) :: rest else (k', v') :: setA rest k v

/-- JS `Map.prototype.delete`: remove the binding of the key. -/
def eraseA {κ β : Type} [DecidableEq κ] : List (κ × β) → κ → List (κ × β)
  | [], _ => []
  | (k', v') :: rest, k => if k' = k then rest else (k', v') :: eraseA rest k

/-- JS `Set.prototype.add`: append the element if it is not yet present. -/
def addS {α : Type} [DecidableEq α] (l : List α) (a : α) : List α :=
  if a ∈ l then l else l ++ [a]

/-- JS `Set.prototype.delete`: remove the element. -/
def delS {α : Type} [DecidableEq α] : List α → α → List α
  | [], _ => []
  | x :: t, a => if x = a then t else x :: delS t a

/-!
### Base64 (Node `Buffer.prototype.toString('base64')` / `Buffer.from(str, 'base64')`)

`file_chunk.data` arrives base64-encoded and is decoded with
`Buffer.from(chunkData, 'base64')`; `completeUpload` re-encodes the
assembled buffer with `fileData.toString('base64')` (RFC 4648 with `=`
padding). Bytes are `Nat`s below 256, base64 text is `List Char`.
-/

namespace Base64

/-- The RFC 4648 alphabet: index 0–25 ↦ `A`–`Z`, 26–51 ↦ `a`–`z`,
52–61 ↦ `0`–`9`, 62 ↦ `+`, 63 ↦ `/`. -/
def sextetChar (n : Nat) : Char :=
  if n < 26 then Char.ofNat (65 + n)
  else if n < 52 then Char.ofNat (97 + (n - 26))
  else if n < 62 then Char.ofNat (48 + (n - 52))
  else if n = 62 then '+'
  else '/'

/-- Inverse of `sextetChar`: the 6-bit value of an alphabet character. -/
def charSextet (c : Char) : Option Nat :=
  let n := c.toNat
  if 65 ≤ n ∧ n ≤ 90 then some (n - 65)
  else if 97 ≤ n ∧ n ≤ 122 then some (26 + (n - 97))
  else if 48 ≤ n ∧ n ≤ 57 then some (52 + (n - 48))
  else if c = '+' then some 62
  else if c = '/' then some 63
  else none

/-- Encode a byte sequence, three bytes to four characters, RFC 4648
padding for a trailing group of one or two bytes. -/
def encode : List Nat → List Char
  | a :: b :: c :: rest =>
    sextetChar (a / 4) :: sextetChar ((a % 4) * 16 + b / 16) ::
      sextetChar ((b % 16) * 4 + c / 64) :: sextetChar (c % 64) :: encode rest
  | [a, b] =>
    [sextetChar (a / 4), sextetChar ((a % 4) * 16 + b / 16),
     sextetChar ((b % 16) * 4), '=']
  | [a] => [sextetChar (a / 4), sextetChar ((a % 4) * 16), '=', '=']
  | [] => []

/-- Decode well-formed base64 text (groups of four characters, `=`
padding), as `Buffer.from(str, 'base64')` does on `encode` output. -/
def decode : List Char → List Nat
  | c1 :: c2 :: c3 :: c4 :: rest =>
    match charSextet c1, charSextet c2 with
    | some s1, some s2 =>
      if c3 = '=' then [s1 * 4 + s2 / 16]
      else
        match charSextet c3 with
        | some s3 =>
          if c4 = '=' then [s1 * 4 + s2 / 16, (s2 % 16) * 16 + s3 / 4]
          else
            match charSextet c4 with
            | some s4 =>
              (s1 * 4 + s2 / 16) :: ((s2 % 16) * 16 + s3 / 4) ::
                ((s3 % 4) * 64 + s4) :: decode rest
            | none => []
        | none => []
    | _, _ => []
  | _ => []

end Base64



/-!
### Session manager (`src/sessions.js`)

Session ids are the `'sess_' + crypto.randomBytes(32).toString('hex')`
tokens, modelled as opaque strings; freshness of a generated token is a
hypothesis of the transition relation below. The module-global maps
`sessions` and `userSessions` form the state, together with a ghost
`clock` recording the last observed `Date.now()` (time never runs
backwards). `auth.logSecurityEvent` calls only append to the write-only
security log and are not modelled.
-/

namespace Sessions

/-- `SESSION_CONFIG.timeout`: 30 minutes of inactivity, in milliseconds. -/
def SESSION_TIMEOUT : Nat := 30 * 60 * 1000

/-- `SESSION_CONFIG.maxSessionsPerUser`. -/
def MAX_SESSIONS_PER_USER : Nat := 5

/-- The `Session` class. `ws` is the owning transport when one was
passed to `createSession` (the v3.3 relay calls it with two arguments,
so there `ws` is `none`). -/
structure Session where
  id : String
  password : String
  deviceInfo : String
  createdAt : Nat
  lastActivity : Nat
  isActive : Bool
  ws : Option Nat
deriving DecidableEq, Repr

/-- `session.isExpired()`: `Date.now() - this.lastActivity > timeout`. -/
def Session.isExpired (s : Session) (now : Nat) : Bool :=
  SESSION_TIMEOUT < now - s.lastActivity

/-- The module-level stores `sessions : sessionId -> Session` and
`userSessions : password -> Set<sessionId>`, plus the ghost clock. -/
structure St where
  sessions : List (String × Session)
  userSessions : List (String × List String)
  clock : Nat
deriving DecidableEq, Repr

def initSt : St := ⟨[], [], 0⟩

/-- A destruction record: `destroySession` sends the owning transport
`{type:'session_expired', reason, message}` when it is still open and
logs `SESSION_DESTROYED` with this reason. -/
structure Evt where
  sid : String
  reason : String
deriving DecidableEq, Repr

/-- `destroySession(sessionId, reason)`: remove the session from both
maps, dropping the `userSessions` entry if its set becomes empty. -/
def destroySession (st : St) (sid : String) (reason : String) :
    St × Bool × List Evt :=
  match lookupA st.sessions sid with
  | none => (st, false, [])
  | some s =>
    let sessions' := eraseA st.sessions sid
    let userSessions' :=
      match lookupA st.userSessions s.password with
      | none => st.userSessions
      | some l =>
        let l' := delS l sid
        if l' = [] then eraseA st.userSessions s.password
        else setA st.userSessions s.password l'
    ({ st with sessions := sessions', userSessions := userSessions' },
     true, [⟨sid, reason⟩])

/-- `createSession(password, deviceInfo, ip, ws)`. The fresh token from
`auth.generateSessionToken()` is the explicit argument `sid`. If the
password already holds `maxSessionsPerUser` sessions, the first element
of its set (`existingSessions.values().next().value`) is destroyed with
reason `max_sessions_exceeded` before the new session is inserted. -/
def createSession (st : St) (sid password deviceInfo : String)
    (ws : Option Nat) (now : Nat) : St × Session × List Evt :=
  let existingSessions := (lookupA st.userSessions password).getD []
  let stEv :=
    if MAX_SESSIONS_PER_USER ≤ existingSessions.length then
      match existingSessions with
      | [] => (st, [])
      | oldestId :: _ =>
        let r := destroySession st oldestId "max_sessions_exceeded"
        (r.1, r.2.2)
    else (st, [])
  let st1 := stEv.1
  let session : Session := ⟨sid, password, deviceInfo, now, now, true, ws⟩
  let sessions' := setA st1.sessions sid session
  let userSessions' :=
    match lookupA st1.userSessions password with
    | none => setA st1.userSessions password [sid]
    | some l => setA st1.userSessions password (addS l sid)
  ({ sessions := sessions', userSessions := userSessions', clock := now },
   session, stEv.2)

/-- `getSession(sessionId)`: destroys an expired session as a side
effect and reports it absent. -/
def getSession (st : St) (sid : String) (now : Nat) :
    St × Option Session × List Evt :=
  match lookupA st.sessions sid with
  | none => ({ st with clock := now }, none, [])
  | some s =>
    if s.isExpired now then
      let r := destroySession st sid "expired"
      ({ r.1 with clock := now }, none, r.2.2)
    else ({ st with clock := now }, some s, [])

/-- `touchSession(sessionId)`: bump `lastActivity`. -/
def touchSession (st : St) (sid : String) (now : Nat) : St × Bool :=
  match lookupA st.sessions sid with
  | none => ({ st with clock := now }, false)
  | some s =>
    ({ st with
        sessions := setA st.sessions sid { s with lastActivity := now },
        clock := now }, true)

/-- The object returned by `validateSession`: `{valid:false, reason}` or
`{valid:true, session}`. -/
structure ValidateResult where
  valid : Bool
  session : Option Session
deriving DecidableEq, Repr

/-- `validateSession(sessionId)`: `getSession` then `session.touch()`. -/
def validateSession (st : St) (sid : String) (now : Nat) :
    St × ValidateResult × List Evt :=
  let r := getSession st sid now
  match r.2.1 with
  | none => (r.1, ⟨false, none⟩, r.2.2)
  | some s =>
    let s' := { s with lastActivity := now }
    ({ r.1 with sessions := setA r.1.sessions sid s' },
     ⟨true, some s'⟩, r.2.2)

/-- `kickSession(sessionId, kickerInfo)`: log, then destroy with reason
`kicked`. -/
def kickSession (st : St) (sid : String) : St × Bool × List Evt :=
  destroySession st sid "kicked"

/-- Body of `cleanupExpiredSessions`: visit every session id and destroy
the expired ones (`destroySession` removes only the visited id, so
iterating over a snapshot of the keys is exact). -/
def cleanupLoop (now : Nat) : St → List String → St × List Evt
  | st, [] => (st, [])
  | st, sid :: rest =>
    let stEv :=
      match lookupA st.sessions sid with
      | none => (st, ([] : List Evt))
      | some s =>
        if s.isExpired now then
          let r := destroySession st sid "expired"
          (r.1, r.2.2)
        else (st, [])
    let r2 := cleanupLoop now stEv.1 rest
    (r2.1, stEv.2 ++ r2.2)

/-- `cleanupExpiredSessions()`. -/
def cleanupExpiredSessions (st : St) (now : Nat) : St × List Evt :=
  let r := cleanupLoop now st (st.sessions.map Prod.fst)
  ({ r.1 with clock := now }, r.2)

/-- One call into the session module: `Date.now()` never runs backwards
and freshly generated session tokens are unused. -/
inductive Step : St → St → Prop where
  | create (st : St) (sid password deviceInfo : String) (ws : Option Nat)
      (now : Nat) (hnow : st.clock ≤ now)
      (hfresh : lookupA st.sessions sid = none) :
      Step st (createSession st sid password deviceInfo ws now).1
  | destroy (st : St) (sid reason : String) :
      Step st (destroySession st sid reason).1
  | get (st : St) (sid : String) (now : Nat) (hnow : st.clock ≤ now) :
      Step st (getSession st sid now).1
  | touch (st : St) (sid : String) (now : Nat) (hnow : st.clock ≤ now) :
      Step st (touchSession st sid now).1
  | validate (st : St) (sid : String) (now : Nat) (hnow : st.clock ≤ now) :
      Step st (validateSession st sid now).1
  | kick (st : St) (sid : String) : Step st (kickSession st sid).1
  | cleanup (st : St) (now : Nat) (hnow : st.clock ≤ now) :
      Step st (cleanupExpiredSessions st now).1

/-- States reachable from the empty module state through the exported
session operations. -/
inductive Reachable : St → Prop where
  | init : Reachable initSt
  | step {st st' : St} : Reachable st → Step st st' → Reachable st'

/-- `createdAt` of the session stored under an id (0 if absent). -/
def cAt (ss : List (String × Session)) (sid : String) : Nat :=
  match lookupA ss sid with
  | some s => s.createdAt
  | none => 0

/-- The number of stored sessions whose `password` field is `p`. -/
def countSessions (st : St) (p : String) : Nat :=
  (st.sessions.filter (fun e => e.2.password = p)).length

/-- The session-store invariant. -/
structure Inv (st : St) : Prop where
  nodupS : (st.sessions.map Prod.fst).Nodup
  nodupU : (st.userSessions.map Prod.fst).Nodup
  nodupL : ∀ p l, lookupA st.userSessions p = some l → l.Nodup
  nonempty : ∀ p l, lookupA st.userSessions p = some l → l ≠ []
  agree : ∀ sid p,
    (∃ l, lookupA st.userSessions p = some l ∧ sid ∈ l) ↔
    (∃ s, lookupA st.sessions sid = some s ∧ s.password = p)
  bound : ∀ p l, lookupA st.userSessions p = some l →
    l.length ≤ MAX_SESSIONS_PER_USER
  sorted : ∀ p l, lookupA st.userSessions p = some l →
    l.Pairwise (fun a b => cAt st.sessions a ≤ cAt st.sessions b)
  clockS : ∀ sid s, lookupA st.sessions sid = some s →
    s.createdAt ≤ st.clock ∧ s.lastActivity ≤ st.clock

end Sessions


/-!
### File-transfer engine (`src/file-handler.js`)

`activeTransfers` and `recentFiles` form the module state. A chunk is
stored decoded (`Buffer.from(chunkData, 'base64')`); the float-valued
display helpers (`getProgress` percentages, `getSpeed`, `getETA`,
`formatFileSize`) are not modelled beyond the literals that reach
result objects.
-/

namespace FileHandler

/-- `FILE_CONFIG.maxFileSize`: 100 MB. -/
def MAX_FILE_SIZE : Nat := 100 * 1024 * 1024

/-- `FILE_CONFIG.chunkSize`: 64 KB. -/
def CHUNK_SIZE : Nat := 64 * 1024

/-- `FILE_CONFIG.recentFilesLimit`. -/
def RECENT_FILES_LIMIT : Nat := 10

/-- `FILE_CONFIG.allowedTypes`. -/
def allowedTypes : List String :=
  ["application/pdf", "application/msword",
   "application/vnd.openxmlformats-officedocument.wordprocessingml.document",
   "application/vnd.ms-excel",
   "application/vnd.openxmlformats-officedocument.spreadsheetml.sheet",
   "application/vnd.ms-powerpoint",
   "application/vnd.openxmlformats-officedocument.presentationml.presentation",
   "text/plain", "text/csv", "text/html", "text/css", "text/javascript",
   "application/json", "application/xml",
   "image/jpeg", "image/png", "image/gif", "image/webp", "image/svg+xml",
   "image/bmp",
   "video/mp4", "video/webm", "video/avi", "video/quicktime",
   "audio/mpeg", "audio/wav", "audio/ogg", "audio/mp3",
   "application/zip", "application/x-rar-compressed",
   "application/x-7z-compressed",
   "application/octet-stream"]

/-- `isValidFileType(mimeType)` (for an actual string). -/
def isValidFileType (mimeType : String) : Bool :=
  allowedTypes.contains mimeType || mimeType.startsWith "text/"

/-- The `FileTransfer` class. `chunks` is the sparse `chunks[]` array
(holes are `none`); a stored chunk is a decoded byte buffer. -/
structure FileTransfer where
  id : String
  fileName : String
  fileSize : Nat
  fileType : String
  direction : String
  password : String
  chunks : List (Option (List Nat))
  receivedSize : Nat
  startTime : Nat
  status : String
  error : Option String
deriving DecidableEq, Repr

instance : Inhabited FileTransfer :=
  ⟨⟨"", "", 0, "", "", "", [], 0, 0, "", none⟩⟩

/-- JS sparse-array assignment `chunks[index] = chunk`: overwrite in
range, otherwise extend the array with holes (`none`) up to the index. -/
def setChunk : List (Option (List Nat)) → Nat → List Nat →
    List (Option (List Nat))
  | [], 0, c => [some c]
  | _ :: t, 0, c => some c :: t
  | [], i + 1, c => none :: setChunk [] i c
  | h :: t, i + 1, c => h :: setChunk t i c

/-- JS sparse-array read `chunks[j]`: `undefined` (`none`) for holes and
out-of-range indices alike. -/
def readC : List (Option (List Nat)) → Nat → Option (List Nat)
  | [], _ => none
  | c :: _, 0 => c
  | _ :: t, j + 1 => readC t j

/-- `FileTransfer.addChunk(chunk, index)`: store the chunk at its index
(overwriting any previous chunk there), add `chunk.length` to
`receivedSize`, mark the transfer `transferring`. -/
def FileTransfer.addChunk (t : FileTransfer) (chunk : List Nat)
    (index : Nat) : FileTransfer :=
  { t with chunks := setChunk t.chunks index chunk,
           receivedSize := t.receivedSize + chunk.length,
           status := "transferring" }

/-- `FileTransfer.complete()`:
`Buffer.concat(this.chunks.filter(c => c))` — array holes are dropped;
empty buffers are objects, hence truthy and kept. -/
def FileTransfer.complete (t : FileTransfer) : FileTransfer × List Nat :=
  ({ t with status := "completed" }, (t.chunks.filterMap (fun c => c)).flatten)

/-- One `recentFiles` entry (`sizeFormatted` and `extension`, pure
formatting, are not modelled). -/
structure RecentFile where
  name : String
  size : Nat
  type : String
  direction : String
  timestamp : Nat
deriving DecidableEq, Repr

/-- The module-level stores. -/
structure FState where
  activeTransfers : List (String × FileTransfer)
  recentFiles : List (String × List RecentFile)
deriving DecidableEq, Repr

/-- `addToRecentFiles(password, fileInfo)`: unshift, capped at
`recentFilesLimit`. -/
def addToRecentFiles (fs : FState) (password : String) (rf : RecentFile) :
    FState :=
  let files := rf :: (lookupA fs.recentFiles password).getD []
  let files' := if RECENT_FILES_LIMIT < files.length then files.dropLast
    else files
  { fs with recentFiles := setA fs.recentFiles password files' }

/-- Result object of `startUpload`. -/
structure StartResult where
  success : Bool
  error : Option String
  transferId : Option String
  chunkSize : Option Nat
  totalChunks : Option Nat
deriving DecidableEq, Repr

/-- `startUpload(fileName, fileSize, fileType, password)` as the module
defines it (typed arguments). The fresh `generateTransferId()` value is
the argument `newId`; `formatFileSize(maxFileSize)` is the literal
`100 MB`; `totalChunks` is `Math.ceil(fileSize / chunkSize)`. -/
def startUpload (fileName : String) (fileSize : Nat) (fileType : String)
    (password : String) (newId : String) (now : Nat) (fs : FState) :
    FState × StartResult :=
  if MAX_FILE_SIZE < fileSize then
    (fs, ⟨false, some "File too large. Max size: 100 MB", none, none, none⟩)
  else if !(isValidFileType fileType) then
    (fs, ⟨false, some "File type not allowed", none, none, none⟩)
  else
    let t : FileTransfer :=
      ⟨newId, fileName, fileSize, fileType, "upload", password, [], 0, now,
       "pending", none⟩
    ({ fs with activeTransfers := setA fs.activeTransfers newId t },
     ⟨true, none, some newId, some CHUNK_SIZE,
      some ((fileSize + CHUNK_SIZE - 1) / CHUNK_SIZE)⟩)

/-- Result object of `receiveChunk` (the `progress` display object is
reported only by its presence). -/
structure ChunkResult where
  success : Bool
  error : Option String
deriving DecidableEq, Repr

/-- `receiveChunk(transferId, chunkIndex, chunkData)`: decode the
base64 chunk and `addChunk` it, unless the transfer is missing,
cancelled or failed. -/
def receiveChunk (fs : FState) (transferId : String) (chunkIndex : Nat)
    (chunkData : List Char) : FState × ChunkResult :=
  match lookupA fs.activeTransfers transferId with
  | none => (fs, ⟨false, some "Transfer not found"⟩)
  | some t =>
    if t.status = "cancelled" ∨ t.status = "failed" then
      (fs, ⟨false, some "Transfer cancelled or failed"⟩)
    else
      let buffer := Base64.decode chunkData
      let t' := t.addChunk buffer chunkIndex
      ({ fs with activeTransfers := setA fs.activeTransfers transferId t' },
       ⟨true, none⟩)

/-- Result object of `completeUpload` (failure leaves the data fields
`undefined`, modelled by the defaults). -/
structure CompleteResult where
  success : Bool
  error : Option String
  fileName : String
  fileSize : Nat
  fileData : List Char
deriving DecidableEq, Repr

/-- `completeUpload(transferId)`: reassemble, record a recent file,
return the base64 of the assembled buffer. The record stays in
`activeTransfers` (a 60 s `setTimeout` purges it later). -/
def completeUpload (fs : FState) (transferId : String) (now : Nat) :
    FState × CompleteResult :=
  match lookupA fs.activeTransfers transferId with
  | none => (fs, ⟨false, some "Transfer not found", "", 0, []⟩)
  | some t =>
    let r := t.complete
    let fs1 :=
      { fs with activeTransfers := setA fs.activeTransfers transferId r.1 }
    let fs2 := addToRecentFiles fs1 t.password
      ⟨t.fileName, t.fileSize, t.fileType, "upload", now⟩
    (fs2, ⟨true, none, t.fileName, t.fileSize, Base64.encode r.2⟩)

/-- `cancelTransfer(transferId)`: mark cancelled and delete. -/
def cancelTransfer (fs : FState) (transferId : String) : FState × Bool :=
  match lookupA fs.activeTransfers transferId with
  | none => (fs, false)
  | some _t =>
    ({ fs with activeTransfers := eraseA fs.activeTransfers transferId },
     true)

end FileHandler

/-!
### The v3.3 `handleFileUploadStart` call (`src/unnamed/part_000`)

The server calls `fileHandler.startUpload(clientInfo.password,
{fileName, fileSize, fileType})`, but the module signature is
`startUpload(fileName, fileSize, fileType, password)`: the password
string arrives as `fileName`, the options object as `fileSize`, and
`fileType` and `password` are `undefined`. The mismatch is dynamically
typed, so this call path is embedded over a small JS value type.
-/

namespace JSCall

/-- The JS values flowing through the mismatched call. -/
inductive JSVal where
  | undef
  | num (n : Nat)
  | str (s : String)
  | obj (fileName : String) (fileSize : Nat) (fileType : String)
deriving DecidableEq, Repr

/-- JS `ToNumber` as `>` uses it: numbers are themselves, numeric
strings parse, `undefined` and plain objects (whose primitive form is
the string `[object Object]`) are NaN (`none`). -/
def toNumber : JSVal → Option Nat
  | .num n => some n
  | .str s => s.toNat?
  | _ => none

/-- The guard `fileSize > FILE_CONFIG.maxFileSize`: a comparison with
NaN is false. -/
def jsGT (a : JSVal) (n : Nat) : Bool :=
  match toNumber a with
  | some m => n < m
  | none => false

/-- `isValidFileType(mimeType)` on a JS value:
`allowedTypes.includes(mimeType)` is false for a non-string, and then
`mimeType.startsWith('text/')` throws a `TypeError` unless `mimeType`
is a string. -/
def isValidFileType : JSVal → Except String Bool
  | .str s =>
    .ok (FileHandler.allowedTypes.contains s || s.startsWith "text/")
  | _ => .error "TypeError: mimeType.startsWith is not a function"

/-- `startUpload` with dynamically typed arguments. The success branch
only reports the result object: the server's call below never reaches
it (`fileType` is always `undefined` there), and `totalChunks` on a
non-numeric `fileSize` is NaN (`none`). -/
def startUpload (_fileName fileSize fileType _password : JSVal)
    (newId : String) : Except String FileHandler.StartResult := do
  if jsGT fileSize FileHandler.MAX_FILE_SIZE then
    return ⟨false, some "File too large. Max size: 100 MB",
      none, none, none⟩
  let ok ← isValidFileType fileType
  if !ok then
    return ⟨false, some "File type not allowed", none, none, none⟩
  return ⟨true, none, some newId, some FileHandler.CHUNK_SIZE, none⟩

/-- The `file_upload_ready` reply. -/
inductive Reply where
  | ready (success : Bool) (transferId : Option String)
      (error : Option String)
deriving DecidableEq, Repr

/-- `handleFileUploadStart(ws, data)` for an attached client:
`fileHandler.startUpload(clientInfo.password, {fileName, fileSize,
fileType})`, then the `file_upload_ready` reply. A thrown `TypeError`
propagates to the `ws.on('message')` catch handler, so no reply is
sent. -/
def handleFileUploadStart (clientPassword : String) (fileName : String)
    (fileSize : Nat) (fileType : String) (newId : String) :
    Except String Reply := do
  let r ← startUpload (.str clientPassword)
    (.obj fileName fileSize fileType) .undef .undef newId
  if r.success then
    return .ready true r.transferId none
  else
    return .ready false none r.error

end JSCall

/-!
### Auth module (`src/auth.js`)

Only the pieces the embedded relay handlers reach: `validatePassword`,
and the `failedAttempts` map with `checkLockout` /
`recordFailedAttempt`. The trusted-device map and the append-only
security log are write-only with respect to the verified claims and are
not modelled.
-/

namespace Auth

/-- `AUTH_CONFIG.maxFailedAttempts`. -/
def MAX_FAILED_ATTEMPTS : Nat := 5

/-- `AUTH_CONFIG.lockoutDuration`: 15 minutes in milliseconds. -/
def LOCKOUT_DURATION : Nat := 15 * 60 * 1000

/-- A `failedAttempts` entry. -/
structure Attempts where
  count : Nat
  lastAttempt : Nat
deriving DecidableEq, Repr

/-- The module state: `failedAttempts`, keyed by password (the relay
passes the password as the key). -/
structure ASt where
  failedAttempts : List (String × Attempts)
deriving DecidableEq, Repr

/-- `validatePassword(password)`: truthy (non-empty) and at least 4
characters. -/
def validatePassword (password : String) : Bool :=
  (!password.isEmpty) && decide (4 ≤ password.length)

/-- Result of `checkLockout`. -/
structure Lockout where
  locked : Bool
  remainingMinutes : Nat
deriving DecidableEq, Repr

/-- `checkLockout(password)`: locked while `count ≥ maxFailedAttempts`
and less than `lockoutDuration` has passed since `lastAttempt`
(`remainingMinutes` is `Math.ceil(remainingMs / 60000)`); once the
window has passed, the entry is cleared. -/
def checkLockout (a : ASt) (password : String) (now : Nat) :
    ASt × Lockout :=
  match lookupA a.failedAttempts password with
  | none => (a, ⟨false, 0⟩)
  | some att =>
    if MAX_FAILED_ATTEMPTS ≤ att.count then
      let timeSinceLast := now - att.lastAttempt
      if timeSinceLast < LOCKOUT_DURATION then
        (a, ⟨true, (LOCKOUT_DURATION - timeSinceLast + 59999) / 60000⟩)
      else
        ({ a with failedAttempts := eraseA a.failedAttempts password },
         ⟨false, 0⟩)
    else (a, ⟨false, 0⟩)

/-- `recordFailedAttempt(key)`: bump the counter and stamp the time. -/
def recordFailedAttempt (a : ASt) (key : String) (now : Nat) : ASt :=
  let att := (lookupA a.failedAttempts key).getD ⟨0, 0⟩
  { a with failedAttempts := setA a.failedAttempts key ⟨att.count + 1, now⟩ }

end Auth

/-!
### Relay server v3.3 (`src/unnamed/part_000`, after the v2.0 listing)

Handlers are state transformers returning the list of observable
transport actions (`ws.send` / `ws.close`) in emission order. The
dynamic fields the server attaches to transports (`ws.computerPassword`,
`ws.sessionId`) are side maps; `openWs` lists the transports whose
`readyState` is `OPEN`.
-/

namespace Relay

/-- The frames the embedded handlers send. -/
inductive Frame where
  | error (message : String)
  | registered (success : Bool)
  | replaced (message : String)
  | connected (sessionId : String) (deviceId : Option String)
      (expiresIn : Option Nat)
  | usersChanged (users : List (String × String)) (totalCount : Nat)
  | sessionExpired (message : String)
  | command (sessionId : String) (data : String)
  | kickResult (success : Option Bool)
  | browseResult (success : Bool) (path : String) (items : String)
      (error : Option String)
  | fileDownloadData (fileName : String) (fileData : String)
      (error : Option String)
  | fileOperationResult (operation : String) (success : Bool)
      (error : Option String) (path : String)
  | watcherResult (success : Bool) (watcherId : String) (path : String)
      (error : Option String)
  | watchedFolders (folders : String)
  | fileProgress (transferId : String)
  | fileCommandReceive (transferId : String) (fileName : String)
      (fileData : List Char) (fileSize : Nat)
  | fileUploadSuccess (transferId : String) (fileName : String)
  | fileUploadError (transferId : String) (error : Option String)
deriving DecidableEq, Repr

/-- An observable transport action. -/
inductive Out where
  | send (ws : Nat) (frame : Frame)
  | close (ws : Nat)
deriving DecidableEq, Repr

/-- A `clients` map entry (`deviceInfo` spread with `trusted`). -/
structure ClientInfo where
  sessionId : String
  password : String
  deviceInfo : String
  trusted : Bool
deriving DecidableEq, Repr

/-- A `computers` map entry (`watchedFolders` is created empty and
never written by the embedded handlers). -/
structure ComputerRec where
  ws : Nat
  info : String
  connectedClients : List Nat
deriving DecidableEq, Repr

/-- The server state. -/
structure SSt where
  computers : List (String × ComputerRec)
  clients : List (Nat × ClientInfo)
  sessions : Sessions.St
  auth : Auth.ASt
  files : FileHandler.FState
  compPw : List (Nat × String)
  wsSessionId : List (Nat × String)
  openWs : List Nat
deriving DecidableEq, Repr

/-- `handleRegisterComputer(ws, data)`. Unlike the v2.0 server earlier
in the same file, v3.3 overwrites `computers[password]` without sending
the old host a `replaced` notice and without closing it. -/
def handleRegisterComputer (st : SSt) (ws : Nat) (password info : String) :
    SSt × List Out :=
  if !(Auth.validatePassword password) then
    (st, [.send ws (.error "Invalid password format")])
  else
    ({ st with computers := setA st.computers password ⟨ws, info, []⟩,
               compPw := setA st.compPw ws password },
     [.send ws (.registered true)])

/-- `notifyComputerOfUserChange(password)`: send `users_changed` to the
computer and to every connected client. -/
def notifyComputerOfUserChange (st : SSt) (password : String) : List Out :=
  match lookupA st.computers password with
  | none => []
  | some computer =>
    let users := computer.connectedClients.filterMap fun clientWs =>
      (lookupA st.clients clientWs).map fun i => (i.sessionId, i.deviceInfo)
    Out.send computer.ws (.usersChanged users users.length) ::
      computer.connectedClients.map fun clientWs =>
        Out.send clientWs (.usersChanged users users.length)

/-- `handleConnectToComputer(ws, data)`. `freshSid` and `freshDevId`
stand for the random tokens `createSession` and
`registerTrustedDevice` generate (the trusted-device store itself is
not referenced by the verified claims); the `connected` frame's
`expiresIn` is `sessions.SESSION_TIMEOUT`, which the sessions module
does not export, hence `undefined` (`none`). -/
def handleConnectToComputer (st : SSt) (ws : Nat) (password : String)
    (trustDevice : Bool) (deviceInfo : String)
    (freshSid freshDevId : String) (now : Nat) : SSt × List Out :=
  let cl := Auth.checkLockout st.auth password now
  if cl.2.locked then
    ({ st with auth := cl.1 },
     [.send ws (.error ("Too many attempts. Try again in " ++
        toString cl.2.remainingMinutes ++ " minutes"))])
  else
    let st1 := { st with auth := cl.1 }
    if !(Auth.validatePassword password) then
      ({ st1 with auth := Auth.recordFailedAttempt st1.auth password now },
       [.send ws (.error "Invalid password")])
    else
      match lookupA st1.computers password with
      | none =>
        ({ st1 with
            auth := Auth.recordFailedAttempt st1.auth password now },
         [.send ws (.error "Computer not found or offline")])
      | some computer =>
        let cr := Sessions.createSession st1.sessions freshSid password
          deviceInfo none now
        let deviceId : Option String :=
          if trustDevice then some freshDevId else none
        let st2 := { st1 with
          sessions := cr.1,
          clients := setA st1.clients ws
            ⟨cr.2.1.id, password, deviceInfo, deviceId.isSome⟩,
          computers := setA st1.computers password
            { computer with
                connectedClients := addS computer.connectedClients ws },
          wsSessionId := setA st1.wsSessionId ws cr.2.1.id }
        (st2, notifyComputerOfUserChange st2 password ++
          [.send ws (.connected cr.2.1.id deviceId none)])

/-- JS truthiness of the object `sessions.validateSession` returns: an
object is always truthy, so `!sessions.validateSession(...)` is always
false and the `session_expired` reply below is dead code. -/
def jsTruthyObject (_r : Sessions.ValidateResult) : Bool := true

/-- `handleRelay(ws, data)`. -/
def handleRelay (st : SSt) (ws : Nat) (payload : String) (now : Nat) :
    SSt × List Out :=
  match lookupA st.clients ws with
  | none => (st, [])
  | some clientInfo =>
    let vr := Sessions.validateSession st.sessions clientInfo.sessionId now
    if !(jsTruthyObject vr.2.1) then
      ({ st with sessions := vr.1 },
       [.send ws (.sessionExpired "Session expired")])
    else
      let st1 := { st with
        sessions := (Sessions.touchSession vr.1 clientInfo.sessionId now).1 }
      match lookupA st1.computers clientInfo.password with
      | some computer =>
        if computer.ws ∈ st1.openWs then
          (st1, [.send computer.ws (.command clientInfo.sessionId payload)])
        else (st1, [])
      | none => (st1, [])

/-- JS property access `result.success` on the primitive boolean that
`sessions.kickSession` returns: `undefined`, hence falsy — the kick
branch below is dead code. -/
def jsBoolSuccessField (_b : Bool) : Bool := false

/-- `handleKickSession(ws, data)`. The server calls
`sessions.kickSession(clientInfo.password, data.sessionId)`, while the
module signature is `kickSession(sessionId, kickerInfo)`: it tries to
destroy a session whose id equals the caller's password. Spreading the
boolean result into `{type:'kick_result', ...result}` contributes no
fields. -/
def handleKickSession (st : SSt) (ws : Nat) (targetSessionId : String) :
    SSt × List Out :=
  match lookupA st.clients ws with
  | none => (st, [])
  | some clientInfo =>
    let kr := Sessions.kickSession st.sessions clientInfo.password
    let st1 := { st with sessions := kr.1 }
    let branch :=
      if jsBoolSuccessField kr.2.1 then
        match lookupA st1.computers clientInfo.password with
        | none => []
        | some computer =>
          (computer.connectedClients.filterMap fun clientWs =>
            if lookupA st1.wsSessionId clientWs = some targetSessionId then
              some [Out.send clientWs
                      (.sessionExpired "You were disconnected by another user"),
                    Out.close clientWs]
            else none).flatten
      else []
    (st1, branch ++ [.send ws (.kickResult none)])

/-- `handleBrowseResultRelay(ws, data)`: translate to `browse_result`
and deliver to the connected clients whose `clients` entry matches
`data.requesterId`. -/
def handleBrowseResultRelay (st : SSt) (ws : Nat) (requesterId : String)
    (success : Bool) (path items : String) (error : Option String) :
    List Out :=
  match lookupA st.compPw ws with
  | none => []
  | some cpw =>
    match lookupA st.computers cpw with
    | none => []
    | some computer =>
      computer.connectedClients.filterMap fun clientWs =>
        match lookupA st.clients clientWs with
        | some info =>
          if info.sessionId = requesterId then
            some (Out.send clientWs (.browseResult success path items error))
          else none
        | none => none

/-- `handleFileDownloadResponse(ws, data)`: translate to
`file_download_data`, delivered the same way. -/
def handleFileDownloadResponse (st : SSt) (ws : Nat)
    (requesterId : String) (fileName fileData : String)
    (error : Option String) : List Out :=
  match lookupA st.compPw ws with
  | none => []
  | some cpw =>
    match lookupA st.computers cpw with
    | none => []
    | some computer =>
      computer.connectedClients.filterMap fun clientWs =>
        match lookupA st.clients clientWs with
        | some info =>
          if info.sessionId = requesterId then
            some (Out.send clientWs (.fileDownloadData fileName fileData error))
          else none
        | none => none

/-- `handleFileOperationResult(ws, data)`. -/
def handleFileOperationResult (st : SSt) (ws : Nat)
    (requesterId : String) (operation : String) (success : Bool)
    (error : Option String) (path : String) : List Out :=
  match lookupA st.compPw ws with
  | none => []
  | some cpw =>
    match lookupA st.computers cpw with
    | none => []
    | some computer =>
      computer.connectedClients.filterMap fun clientWs =>
        match lookupA st.clients clientWs with
        | some info =>
          if info.sessionId = requesterId then
            some (Out.send clientWs
              (.fileOperationResult operation success error path))
          else none
        | none => none

/-- `handleWatcherResultRelay(ws, data)`. -/
def handleWatcherResultRelay (st : SSt) (ws : Nat) (requesterId : String)
    (success : Bool) (watcherId path : String) (error : Option String) :
    List Out :=
  match lookupA st.compPw ws with
  | none => []
  | some cpw =>
    match lookupA st.computers cpw with
    | none => []
    | some computer =>
      computer.connectedClients.filterMap fun clientWs =>
        match lookupA st.clients clientWs with
        | some info =>
          if info.sessionId = requesterId then
            some (Out.send clientWs (.watcherResult success watcherId path error))
          else none
        | none => none

/-- `handleWatchedFoldersRelay(ws, data)`. -/
def handleWatchedFoldersRelay (st : SSt) (ws : Nat) (requesterId : String)
    (folders : String) : List Out :=
  match lookupA st.compPw ws with
  | none => []
  | some cpw =>
    match lookupA st.computers cpw with
    | none => []
    | some computer =>
      computer.connectedClients.filterMap fun clientWs =>
        match lookupA st.clients clientWs with
        | some info =>
          if info.sessionId = requesterId then
            some (Out.send clientWs (.watchedFolders folders))
          else none
        | none => none

/-- `handleFileChunk(ws, data)` (the float-valued payload of the
`file_progress` reply is reported only by its presence). -/
def handleFileChunk (st : SSt) (ws : Nat) (transferId : String)
    (chunkIndex : Nat) (chunkData : List Char) : SSt × List Out :=
  match lookupA st.clients ws with
  | none => (st, [])
  | some _clientInfo =>
    let r := FileHandler.receiveChunk st.files transferId chunkIndex chunkData
    let st1 := { st with files := r.1 }
    if r.2.success then (st1, [.send ws (.fileProgress transferId)])
    else (st1, [])

/-- `handleFileUploadComplete(ws, data)`: complete the transfer,
forward `file_command{command:'file_receive', …}` to the computer when
it is open, reply `file_upload_success` to the uploader. -/
def handleFileUploadComplete (st : SSt) (ws : Nat) (transferId : String)
    (now : Nat) : SSt × List Out :=
  match lookupA st.clients ws with
  | none => (st, [])
  | some clientInfo =>
    let r := FileHandler.completeUpload st.files transferId now
    let st1 := { st with files := r.1 }
    if r.2.success then
      let toComputer :=
        match lookupA st1.computers clientInfo.password with
        | some computer =>
          if computer.ws ∈ st1.openWs then
            [Out.send computer.ws (.fileCommandReceive transferId
              r.2.fileName r.2.fileData r.2.fileSize)]
          else []
        | none => []
      (st1, toComputer ++ [.send ws (.fileUploadSuccess transferId r.2.fileName)])
    else
      (st1, [.send ws (.fileUploadError transferId r.2.error)])

end Relay

/-!
### Concrete states used by the witnesses and counterexamples
-/

namespace Sessions

/-- One session for password `alfa`, created at time 5. -/
def exampleOneSession : St :=
  (createSession initSt "sess_a" "alfa" "dev" none 5).1

/-- Five sessions for password `alfa`, created at times 1 to 5. -/
def ex1 : St := (createSession initSt "s1" "alfa" "d" none 1).1

def ex2 : St := (createSession ex1 "s2" "alfa" "d" none 2).1

def ex3 : St := (createSession ex2 "s3" "alfa" "d" none 3).1

def ex4 : St := (createSession ex3 "s4" "alfa" "d" none 4).1

def exampleFiveSessions : St :=
  (createSession ex4 "s5" "alfa" "d" none 5).1

end Sessions

namespace FileHandler

/-- A pending 10-byte upload under transfer id `tr1`. -/
def exampleTransfer : FileTransfer :=
  ⟨"tr1", "a.bin", 10, "application/octet-stream", "upload", "alfa",
   [], 0, 0, "pending", none⟩

def exampleFState : FState := ⟨[("tr1", exampleTransfer)], []⟩

/-- Base64 of a six-byte chunk. -/
def dupChunkData : List Char := Base64.encode [65, 65, 65, 65, 65, 65]

/-- The state after the same six-byte chunk is delivered twice at chunk
index 0. -/
def exampleAfterDup : FState :=
  (receiveChunk (receiveChunk exampleFState "tr1" 0 dupChunkData).1
    "tr1" 0 dupChunkData).1

def exampleDupTransfer : FileTransfer :=
  (lookupA exampleAfterDup.activeTransfers "tr1").getD default

end FileHandler

namespace Relay

/-- A server state with one registered computer (transport 1) and one
attached client (transport 2), holding a freshly started 10-byte upload
`T` of `a.txt`. -/
def exampleUploadState : SSt :=
  ⟨[("alfa", ⟨1, "i", [2]⟩)],
   [(2, ⟨"sess1", "alfa", "d", false⟩)],
   Sessions.initSt, ⟨[]⟩,
   (FileHandler.startUpload "a.txt" 10 "text/plain" "alfa" "T" 0
     ⟨[], []⟩).1,
   [(1, "alfa")], [(2, "sess1")], [1, 2]⟩

/-- The delivery predicate the five directed-relay handlers share: the
client at transport `w` is the requester when its `clients` entry
carries `sessionId = rid`. -/
def matchesRequester (cl : List (Nat × ClientInfo)) (rid : String)
    (w : Nat) : Bool :=
  match lookupA cl w with
  | some info => info.sessionId = rid
  | none => false

/-- A server state with a live Host (transport 1) registered for
password `alpha`. -/
def exampleHostState : SSt :=
  ⟨[("alpha", ⟨1, "h1", []⟩)], [], Sessions.initSt, ⟨[]⟩, ⟨[], []⟩,
   [(1, "alpha")], [], [1]⟩

/-- A server state whose attached Controller (transport 2) owns a
session that last saw activity at time 0. -/
def exampleExpiredState : SSt :=
  ⟨[("alfa", ⟨1, "i", [2]⟩)],
   [(2, ⟨"sess1", "alfa", "d", false⟩)],
   ⟨[("sess1", ⟨"sess1", "alfa", "d", 0, 0, true, none⟩)],
    [("alfa", ["sess1"])], 0⟩,
   ⟨[]⟩, ⟨[], []⟩, [(1, "alfa")], [(2, "sess1")], [1, 2]⟩

/-- A server state with a Host registered for password `zzzz` and five
failed attempts recorded against that password at time 0. -/
def exampleLockoutState : SSt :=
  ⟨[("zzzz", ⟨1, "h", []⟩)], [], Sessions.initSt,
   ⟨[("zzzz", ⟨5, 0⟩)]⟩, ⟨[], []⟩, [(1, "zzzz")], [], [1]⟩

/-- A server state with one Host (transport 1) and two attached
Controllers (transports 2 and 3) with distinct session ids. -/
def exampleDirectedState : SSt :=
  ⟨[("alfa", ⟨1, "i", [2, 3]⟩)],
   [(2, ⟨"sA", "alfa", "d", false⟩), (3, ⟨"sB", "alfa", "d", false⟩)],
   Sessions.initSt, ⟨[]⟩, ⟨[], []⟩, [(1, "alfa")],
   [(2, "sA"), (3, "sB")], [1, 2, 3]⟩

/-- A server state where the Controller at transport 2 shares password
`alfa` with the session `sess_t`, whose owning transport 3 is open. -/
def exampleKickState : SSt :=
  ⟨[("alfa", ⟨1, "i", [2, 3]⟩)],
   [(2, ⟨"sess1", "alfa", "d", false⟩),
    (3, ⟨"sess_t", "alfa", "d", false⟩)],
   ⟨[("sess_t", ⟨"sess_t", "alfa", "d", 0, 0, true, some 3⟩)],
    [("alfa", ["sess_t"])], 0⟩,
   ⟨[]⟩, ⟨[], []⟩, [(1, "alfa")],
   [(2, "sess1"), (3, "sess_t")], [1, 2, 3]⟩

end Relay

/-!
## Proofs

Lemmas about the association-list and set operations, then the
properties of each embedded module.
-/

namespace AList

variable {κ β : Type} [DecidableEq κ]

theorem lookupA_setA_self (l : List (κ × β)) (k : κ) (v : β) :
    lookupA (setA l k v) k = some v := by
  induction l with
  | nil => simp [setA, lookupA]
  | cons hd tl ih =>
    obtain ⟨a, b⟩ := hd
    by_cases h : a = k
    · simp [setA, h, lookupA]
    · simp [setA, h, lookupA, ih]

theorem lookupA_setA_ne (l : List (κ × β)) (k k' : κ) (v : β) (h : k' ≠ k) :
    lookupA (setA l k v) k' = lookupA l k' := by
  have hkk : ¬ (k = k') := fun hh => h hh.symm
  induction l with
  | nil => simp [setA, lookupA, hkk]
  | cons hd tl ih =>
    obtain ⟨a, b⟩ := hd
    by_cases hh : a = k
    · subst hh
      simp [setA, lookupA, hkk]
    · by_cases hk : a = k'
      · simp [setA, hh, lookupA, hk, h]
      · simp [setA, hh, lookupA, hk, ih]

theorem lookupA_eraseA_ne (l : List (κ × β)) (k k' : κ) (h : k' ≠ k) :
    lookupA (eraseA l k) k' = lookupA l k' := by
  have hkk : ¬ (k = k') := fun hh => h hh.symm
  induction l with
  | nil => simp [eraseA]
  | cons hd tl ih =>
    obtain ⟨a, b⟩ := hd
    by_cases hh : a = k
    · subst hh
      simp [eraseA, lookupA, hkk]
    · by_cases hk : a = k'
      · simp [eraseA, hh, lookupA, hk, h]
      · simp [eraseA, hh, lookupA, hk, ih]

theorem keys_setA (l : List (κ × β)) (k : κ) (v : β) (k' : κ) :
    (k' ∈ (setA l k v).map Prod.fst) ↔ (k' ∈ l.map Prod.fst ∨ k' = k) := by
  induction l with
  | nil => simp [setA]
  | cons hd tl ih =>
    obtain ⟨a, b⟩ := hd
    by_cases hh : a = k
    · subst hh
      by_cases hk : k' = a <;> simp [setA, hk]
    · by_cases hk : k' = a <;> simp [setA, hh, hk, ih]

theorem keys_eraseA_sublist (l : List (κ × β)) (k : κ) :
    ((eraseA l k).map Prod.fst).Sublist (l.map Prod.fst) := by
  induction l with
  | nil => simp [eraseA]
  | cons hd tl ih =>
    obtain ⟨a, b⟩ := hd
    by_cases hh : a = k
    · simp only [eraseA, if_pos hh, List.map_cons]
      exact List.Sublist.cons _ (List.Sublist.refl _)
    · simp only [eraseA, if_neg hh, List.map_cons]
      exact ih.cons₂ _

theorem nodup_keys_setA (l : List (κ × β)) (k : κ) (v : β)
    (h : (l.map Prod.fst).Nodup) : ((setA l k v).map Prod.fst).Nodup := by
  induction l with
  | nil => simp [setA]
  | cons hd tl ih =>
    obtain ⟨a, b⟩ := hd
    simp only [List.map_cons, List.nodup_cons] at h
    by_cases hh : a = k
    · subst hh
      simpa [setA, List.nodup_cons] using h
    · simp only [setA, if_neg hh, List.map_cons, List.nodup_cons]
      refine ⟨?_, ih h.2⟩
      intro hmem
      rcases (keys_setA tl k v a).1 hmem with hin | heq
      · exact h.1 hin
      · exact hh heq

theorem nodup_keys_eraseA (l : List (κ × β)) (k : κ)
    (h : (l.map Prod.fst).Nodup) : ((eraseA l k).map Prod.fst).Nodup :=
  (keys_eraseA_sublist l k).nodup h

theorem lookupA_eq_none_of_not_mem_keys (l : List (κ × β)) (k : κ)
    (h : k ∉ l.map Prod.fst) : lookupA l k = none := by
  induction l with
  | nil => simp [lookupA]
  | cons hd tl ih =>
    obtain ⟨a, b⟩ := hd
    simp only [List.map_cons, List.mem_cons, not_or] at h
    have ha : ¬ (a = k) := fun hh => h.1 hh.symm
    simp [lookupA, ha, ih h.2]

theorem lookupA_eraseA_self (l : List (κ × β)) (k : κ)
    (h : (l.map Prod.fst).Nodup) : lookupA (eraseA l k) k = none := by
  induction l with
  | nil => simp [eraseA, lookupA]
  | cons hd tl ih =>
    obtain ⟨a, b⟩ := hd
    simp only [List.map_cons, List.nodup_cons] at h
    by_cases hh : a = k
    · subst hh
      simp only [eraseA, if_pos rfl]
      exact lookupA_eq_none_of_not_mem_keys tl a h.1
    · simp [eraseA, hh, lookupA, ih h.2]

theorem mem_keys_of_lookupA (l : List (κ × β)) (k : κ) (v : β)
    (h : lookupA l k = some v) : k ∈ l.map Prod.fst := by
  induction l with
  | nil => simp [lookupA] at h
  | cons hd tl ih =>
    obtain ⟨a, b⟩ := hd
    by_cases hh : a = k
    · simp [hh]
    · simp only [lookupA, if_neg hh] at h
      simp [ih h]

end AList

namespace Base64

theorem charSextet_sextetChar : ∀ n < 64, charSextet (sextetChar n) = some n := by
  decide

theorem sextetChar_ne_eq : ∀ n < 64, ¬ (sextetChar n = '=') := by
  decide

/-- Decoding inverts encoding on genuine byte sequences. -/
theorem decode_encode : ∀ bs : List Nat, (∀ x ∈ bs, x < 256) →
    decode (encode bs) = bs
  | [], _ => rfl
  | [a], h => by
    have ha : a < 256 := h a (by simp)
    have h1 : a / 4 < 64 := by omega
    have h2 : (a % 4) * 16 < 64 := by omega
    have e1 : a / 4 * 4 + (a % 4 * 16) / 16 = a := by omega
    simp [encode, decode, charSextet_sextetChar _ h1,
      charSextet_sextetChar _ h2, e1]
    all_goals omega
  | [a, b], h => by
    have ha : a < 256 := h a (by simp)
    have hb : b < 256 := h b (by simp)
    have h1 : a / 4 < 64 := by omega
    have h2 : (a % 4) * 16 + b / 16 < 64 := by omega
    have h3 : (b % 16) * 4 < 64 := by omega
    have e1 : a / 4 * 4 + (a % 4 * 16 + b / 16) / 16 = a := by omega
    have e2 : (a % 4 * 16 + b / 16) % 16 * 16 + (b % 16 * 4) / 4 = b := by
      omega
    simp [encode, decode, charSextet_sextetChar _ h1,
      charSextet_sextetChar _ h2, charSextet_sextetChar _ h3,
      sextetChar_ne_eq _ h3, e1, e2]
    all_goals omega
  | a :: b :: c :: rest, h => by
    have ha : a < 256 := h a (by simp)
    have hb : b < 256 := h b (by simp)
    have hc : c < 256 := h c (by simp)
    have h1 : a / 4 < 64 := by omega
    have h2 : (a % 4) * 16 + b / 16 < 64 := by omega
    have h3 : (b % 16) * 4 + c / 64 < 64 := by omega
    have h4 : c % 64 < 64 := by omega
    have e1 : a / 4 * 4 + (a % 4 * 16 + b / 16) / 16 = a := by omega
    have e2 : (a % 4 * 16 + b / 16) % 16 * 16 + (b % 16 * 4 + c / 64) / 4 = b := by
      omega
    have e3 : (b % 16 * 4 + c / 64) % 4 * 64 + c % 64 = c := by omega
    have ih : decode (encode rest) = rest :=
      decode_encode rest (fun x hx => h x (by simp [hx]))
    simp [encode, decode, charSextet_sextetChar _ h1,
      charSextet_sextetChar _ h2, charSextet_sextetChar _ h3,
      charSextet_sextetChar _ h4, sextetChar_ne_eq _ h3,
      sextetChar_ne_eq _ h4, ih, e1, e2, e3]
  

end Base64

namespace SetOps

variable {α : Type} [DecidableEq α]

theorem delS_sublist (l : List α) (a : α) : (delS l a).Sublist l := by
  induction l with
  | nil => simp [delS]
  | cons x t ih =>
    by_cases hx : x = a
    · simp only [delS, if_pos hx]
      exact List.Sublist.cons _ (List.Sublist.refl _)
    · simp only [delS, if_neg hx]
      exact ih.cons₂ _

theorem nodup_delS (l : List α) (a : α) (h : l.Nodup) : (delS l a).Nodup :=
  (delS_sublist l a).nodup h

theorem length_delS_le (l : List α) (a : α) :
    (delS l a).length ≤ l.length :=
  (delS_sublist l a).length_le

theorem mem_delS (l : List α) (a b : α) (h : l.Nodup) :
    b ∈ delS l a ↔ b ∈ l ∧ b ≠ a := by
  induction l with
  | nil => simp [delS]
  | cons x t ih =>
    simp only [List.nodup_cons] at h
    by_cases hx : x = a
    · subst hx
      simp only [delS, if_pos rfl, List.mem_cons]
      constructor
      · intro hb
        refine ⟨Or.inr hb, ?_⟩
        intro hba
        subst hba
        exact h.1 hb
      · rintro ⟨hb | hb, hne⟩
        · exact absurd hb hne
        · exact hb
    · simp only [delS, if_neg hx, List.mem_cons]
      constructor
      · rintro (hb | hb)
        · subst hb
          exact ⟨Or.inl rfl, fun hba => hx hba⟩
        · rcases (ih h.2).1 hb with ⟨hbt, hne⟩
          exact ⟨Or.inr hbt, hne⟩
      · rintro ⟨hb | hb, hne⟩
        · exact Or.inl hb
        · exact Or.inr ((ih h.2).2 ⟨hb, hne⟩)

theorem delS_cons_head (a : α) (t : List α) : delS (a :: t) a = t := by
  simp [delS]

theorem eq_singleton_of_delS_nil (l : List α) (a : α) (ha : a ∈ l)
    (he : delS l a = []) : l = [a] := by
  cases l with
  | nil => simp at ha
  | cons x t =>
    by_cases hx : x = a
    · subst hx
      rw [delS_cons_head] at he
      rw [he]
    · simp only [delS, if_neg hx] at he
      exact absurd he (by simp)

theorem mem_addS (l : List α) (a b : α) :
    b ∈ addS l a ↔ b ∈ l ∨ b = a := by
  unfold addS
  by_cases hm : a ∈ l
  · simp only [if_pos hm]
    constructor
    · exact Or.inl
    · rintro (hb | hb)
      · exact hb
      · subst hb; exact hm
  · simp [if_neg hm]

theorem addS_of_not_mem (l : List α) (a : α) (h : a ∉ l) :
    addS l a = l ++ [a] := by
  simp [addS, h]

theorem nodup_addS (l : List α) (a : α) (h : l.Nodup) :
    (addS l a).Nodup := by
  unfold addS
  by_cases hm : a ∈ l
  · simpa [hm] using h
  · simp only [if_neg hm]
    simpa [List.nodup_append] using ⟨h, fun hb => hm hb⟩

end SetOps

namespace Sessions

open AList SetOps

theorem destroy_clock (st : St) (sid reason : String) :
    (destroySession st sid reason).1.clock = st.clock := by
  unfold destroySession
  cases lookupA st.sessions sid <;> rfl

theorem destroy_sessions_lookup (st : St) (sid reason : String)
    (hnd : (st.sessions.map Prod.fst).Nodup) (x : String) :
    lookupA (destroySession st sid reason).1.sessions x =
      if x = sid then none else lookupA st.sessions x := by
  unfold destroySession
  cases hl : lookupA st.sessions sid with
  | none =>
    by_cases hx : x = sid
    · subst hx; simp [hl]
    · simp [hx]
  | some s =>
    by_cases hx : x = sid
    · subst hx
      simp [lookupA_eraseA_self _ _ hnd]
    · simp [hx, lookupA_eraseA_ne _ _ _ hx]

theorem cAt_congr (ss' ss : List (String × Session)) (x : String)
    (hx : lookupA ss' x = lookupA ss x) : cAt ss' x = cAt ss x := by
  unfold cAt
  rw [hx]

theorem destroy_inv (st : St) (sid reason : String) (h : Inv st) :
    Inv (destroySession st sid reason).1 := by
  unfold destroySession
  cases hl : lookupA st.sessions sid with
  | none => exact h
  | some s =>
    obtain ⟨lp, hlp, hsidlp⟩ := (h.agree sid s.password).2 ⟨s, hl, rfl⟩
    have hlpnd : lp.Nodup := h.nodupL _ _ hlp
    have hS : ∀ x, lookupA (eraseA st.sessions sid) x =
        if x = sid then none else lookupA st.sessions x := by
      intro x
      by_cases hx : x = sid
      · subst hx; simp [lookupA_eraseA_self _ _ h.nodupS]
      · simp [hx, lookupA_eraseA_ne _ _ _ hx]
    -- a member of the set stored for password p is a stored session with
    -- that password, hence it is `sid` only when p = s.password
    have hmem_ne : ∀ p l x, lookupA st.userSessions p = some l → x ∈ l →
        p ≠ s.password → x ≠ sid := by
      intro p l x hpl hxl hp hx
      subst hx
      obtain ⟨s2, hs2, hps2⟩ := (h.agree x p).1 ⟨l, hpl, hxl⟩
      rw [hl] at hs2
      cases hs2
      exact hp hps2.symm
    have hclockS : ∀ sid2 s2,
        lookupA (eraseA st.sessions sid) sid2 = some s2 →
        s2.createdAt ≤ st.clock ∧ s2.lastActivity ≤ st.clock := by
      intro sid2 s2 hs2
      rw [hS] at hs2
      by_cases hx : sid2 = sid
      · rw [if_pos hx] at hs2; cases hs2
      · rw [if_neg hx] at hs2
        exact h.clockS _ _ hs2
    simp only [hlp]
    by_cases he : delS lp sid = []
    · -- the set becomes empty: its entry is removed
      have hsingle : lp = [sid] := eq_singleton_of_delS_nil lp sid hsidlp he
      rw [if_pos he]
      refine ⟨nodup_keys_eraseA _ _ h.nodupS, nodup_keys_eraseA _ _ h.nodupU,
        ?_, ?_, ?_, ?_, ?_, ?_⟩
      · intro p l hpl2
        dsimp only at hpl2
        by_cases hp : p = s.password
        · subst hp
          rw [lookupA_eraseA_self _ _ h.nodupU] at hpl2
          cases hpl2
        · rw [lookupA_eraseA_ne _ _ _ hp] at hpl2
          exact h.nodupL _ _ hpl2
      · intro p l hpl2
        dsimp only at hpl2
        by_cases hp : p = s.password
        · subst hp
          rw [lookupA_eraseA_self _ _ h.nodupU] at hpl2
          cases hpl2
        · rw [lookupA_eraseA_ne _ _ _ hp] at hpl2
          exact h.nonempty _ _ hpl2
      · intro sid2 p
        dsimp only
        constructor
        · rintro ⟨l, hpl2, hmem⟩
          by_cases hp : p = s.password
          · subst hp
            rw [lookupA_eraseA_self _ _ h.nodupU] at hpl2
            cases hpl2
          · rw [lookupA_eraseA_ne _ _ _ hp] at hpl2
            have hne : sid2 ≠ sid := hmem_ne p l sid2 hpl2 hmem hp
            obtain ⟨s2, hs2, hps2⟩ := (h.agree sid2 p).1 ⟨l, hpl2, hmem⟩
            refine ⟨s2, ?_, hps2⟩
            rw [hS, if_neg hne]
            exact hs2
        · rintro ⟨s2, hs2, hps2⟩
          rw [hS] at hs2
          by_cases hx : sid2 = sid
          · rw [if_pos hx] at hs2; cases hs2
          · rw [if_neg hx] at hs2
            obtain ⟨l, hpl2, hmem⟩ := (h.agree sid2 p).2 ⟨s2, hs2, hps2⟩
            by_cases hp : p = s.password
            · subst hp
              rw [hlp] at hpl2
              cases hpl2
              rw [hsingle] at hmem
              simp at hmem
              exact absurd hmem hx
            · refine ⟨l, ?_, hmem⟩
              rw [lookupA_eraseA_ne _ _ _ hp]
              exact hpl2
      · intro p l hpl2
        dsimp only at hpl2
        by_cases hp : p = s.password
        · subst hp
          rw [lookupA_eraseA_self _ _ h.nodupU] at hpl2
          cases hpl2
        · rw [lookupA_eraseA_ne _ _ _ hp] at hpl2
          exact h.bound _ _ hpl2
      · intro p l hpl2
        dsimp only at hpl2 ⊢
        by_cases hp : p = s.password
        · subst hp
          rw [lookupA_eraseA_self _ _ h.nodupU] at hpl2
          cases hpl2
        · rw [lookupA_eraseA_ne _ _ _ hp] at hpl2
          refine List.Pairwise.imp_of_mem ?_ (h.sorted _ _ hpl2)
          intro a b ha hb hab
          have hca : cAt (eraseA st.sessions sid) a = cAt st.sessions a :=
            cAt_congr _ _ a
              (by rw [hS, if_neg (hmem_ne p l a hpl2 ha hp)])
          have hcb : cAt (eraseA st.sessions sid) b = cAt st.sessions b :=
            cAt_congr _ _ b
              (by rw [hS, if_neg (hmem_ne p l b hpl2 hb hp)])
          rw [hca, hcb]
          exact hab
      · intro sid2 s2 hs2
        dsimp only at hs2
        exact hclockS _ _ hs2
    · -- the shrunken set is written back in place
      rw [if_neg he]
      refine ⟨nodup_keys_eraseA _ _ h.nodupS, nodup_keys_setA _ _ _ h.nodupU,
        ?_, ?_, ?_, ?_, ?_, ?_⟩
      · intro p l hpl2
        dsimp only at hpl2
        by_cases hp : p = s.password
        · subst hp
          rw [lookupA_setA_self] at hpl2
          cases hpl2
          exact nodup_delS _ _ hlpnd
        · rw [lookupA_setA_ne _ _ _ _ hp] at hpl2
          exact h.nodupL _ _ hpl2
      · intro p l hpl2
        dsimp only at hpl2
        by_cases hp : p = s.password
        · subst hp
          rw [lookupA_setA_self] at hpl2
          cases hpl2
          exact he
        · rw [lookupA_setA_ne _ _ _ _ hp] at hpl2
          exact h.nonempty _ _ hpl2
      · intro sid2 p
        dsimp only
        constructor
        · rintro ⟨l, hpl2, hmem⟩
          by_cases hp : p = s.password
          · subst hp
            rw [lookupA_setA_self] at hpl2
            cases hpl2
            obtain ⟨hmem2, hne⟩ := (mem_delS _ _ _ hlpnd).1 hmem
            obtain ⟨s2, hs2, hps2⟩ :=
              (h.agree sid2 s.password).1 ⟨lp, hlp, hmem2⟩
            refine ⟨s2, ?_, hps2⟩
            rw [hS, if_neg hne]
            exact hs2
          · rw [lookupA_setA_ne _ _ _ _ hp] at hpl2
            have hne : sid2 ≠ sid := hmem_ne p l sid2 hpl2 hmem hp
            obtain ⟨s2, hs2, hps2⟩ := (h.agree sid2 p).1 ⟨l, hpl2, hmem⟩
            refine ⟨s2, ?_, hps2⟩
            rw [hS, if_neg hne]
            exact hs2
        · rintro ⟨s2, hs2, hps2⟩
          rw [hS] at hs2
          by_cases hx : sid2 = sid
          · rw [if_pos hx] at hs2; cases hs2
          · rw [if_neg hx] at hs2
            obtain ⟨l, hpl2, hmem⟩ := (h.agree sid2 p).2 ⟨s2, hs2, hps2⟩
            by_cases hp : p = s.password
            · subst hp
              rw [hlp] at hpl2
              cases hpl2
              refine ⟨delS lp sid, lookupA_setA_self _ _ _, ?_⟩
              exact (mem_delS _ _ _ hlpnd).2 ⟨hmem, hx⟩
            · refine ⟨l, ?_, hmem⟩
              rw [lookupA_setA_ne _ _ _ _ hp]
              exact hpl2
      · intro p l hpl2
        dsimp only at hpl2
        by_cases hp : p = s.password
        · subst hp
          rw [lookupA_setA_self] at hpl2
          cases hpl2
          exact le_trans (length_delS_le _ _) (h.bound _ _ hlp)
        · rw [lookupA_setA_ne _ _ _ _ hp] at hpl2
          exact h.bound _ _ hpl2
      · intro p l hpl2
        dsimp only at hpl2 ⊢
        by_cases hp : p = s.password
        · subst hp
          rw [lookupA_setA_self] at hpl2
          cases hpl2
          refine List.Pairwise.imp_of_mem ?_
            ((h.sorted _ _ hlp).sublist (delS_sublist _ _))
          intro a b ha hb hab
          have hnea : a ≠ sid := ((mem_delS _ _ _ hlpnd).1 ha).2
          have hneb : b ≠ sid := ((mem_delS _ _ _ hlpnd).1 hb).2
          have hca : cAt (eraseA st.sessions sid) a = cAt st.sessions a :=
            cAt_congr _ _ a (by rw [hS, if_neg hnea])
          have hcb : cAt (eraseA st.sessions sid) b = cAt st.sessions b :=
            cAt_congr _ _ b (by rw [hS, if_neg hneb])
          rw [hca, hcb]
          exact hab
        · rw [lookupA_setA_ne _ _ _ _ hp] at hpl2
          refine List.Pairwise.imp_of_mem ?_ (h.sorted _ _ hpl2)
          intro a b ha hb hab
          have hca : cAt (eraseA st.sessions sid) a = cAt st.sessions a :=
            cAt_congr _ _ a
              (by rw [hS, if_neg (hmem_ne p l a hpl2 ha hp)])
          have hcb : cAt (eraseA st.sessions sid) b = cAt st.sessions b :=
            cAt_congr _ _ b
              (by rw [hS, if_neg (hmem_ne p l b hpl2 hb hp)])
          rw [hca, hcb]
          exact hab
      · intro sid2 s2 hs2
        dsimp only at hs2
        exact hclockS _ _ hs2

end Sessions

namespace Sessions

open AList SetOps

/-- Invariant of the final insertion step of `createSession`: the new
session is stored under a fresh id, and its password's set (already at
most four long after any eviction) gets the id appended. -/
theorem insert_inv (st1 : St) (sid pw di : String) (ws : Option Nat)
    (now : Nat) (h1 : Inv st1) (hck : st1.clock ≤ now)
    (hf : lookupA st1.sessions sid = none)
    (hbd : ∀ l, lookupA st1.userSessions pw = some l → l.length ≤ 4) :
    Inv ⟨setA st1.sessions sid ⟨sid, pw, di, now, now, true, ws⟩,
      (match lookupA st1.userSessions pw with
       | none => setA st1.userSessions pw [sid]
       | some l => setA st1.userSessions pw (addS l sid)), now⟩ := by
  set news : Session := ⟨sid, pw, di, now, now, true, ws⟩ with hnews
  have hpw_news : news.password = pw := rfl
  have hS' : ∀ x, lookupA (setA st1.sessions sid news) x =
      if x = sid then some news else lookupA st1.sessions x := by
    intro x
    by_cases hx : x = sid
    · subst hx; simp [lookupA_setA_self]
    · simp [hx, lookupA_setA_ne _ _ _ _ hx]
  -- no existing set contains the fresh id
  have hnot : ∀ p l x, lookupA st1.userSessions p = some l → x ∈ l →
      x ≠ sid := by
    intro p l x hpl hxl hx
    subst hx
    obtain ⟨s2, hs2, _⟩ := (h1.agree x p).1 ⟨l, hpl, hxl⟩
    rw [hf] at hs2
    cases hs2
  have hcA : ∀ p l x, lookupA st1.userSessions p = some l → x ∈ l →
      cAt (setA st1.sessions sid news) x = cAt st1.sessions x := by
    intro p l x hpl hxl
    exact cAt_congr _ _ x (by rw [hS', if_neg (hnot p l x hpl hxl)])
  have hcnow : ∀ p l x, lookupA st1.userSessions p = some l → x ∈ l →
      cAt st1.sessions x ≤ now := by
    intro p l x hpl hxl
    obtain ⟨s2, hs2, _⟩ := (h1.agree x p).1 ⟨l, hpl, hxl⟩
    unfold cAt
    rw [hs2]
    exact le_trans (h1.clockS _ _ hs2).1 hck
  have hcsid : cAt (setA st1.sessions sid news) sid = now := by
    unfold cAt
    rw [hS', if_pos rfl]
  cases hU1 : lookupA st1.userSessions pw with
  | none =>
    refine ⟨nodup_keys_setA _ _ _ h1.nodupS, nodup_keys_setA _ _ _ h1.nodupU,
      ?_, ?_, ?_, ?_, ?_, ?_⟩
    · intro p l hpl
      dsimp only at hpl
      by_cases hp : p = pw
      · subst hp
        rw [lookupA_setA_self] at hpl
        cases hpl
        simp
      · rw [lookupA_setA_ne _ _ _ _ hp] at hpl
        exact h1.nodupL _ _ hpl
    · intro p l hpl
      dsimp only at hpl
      by_cases hp : p = pw
      · subst hp
        rw [lookupA_setA_self] at hpl
        cases hpl
        simp
      · rw [lookupA_setA_ne _ _ _ _ hp] at hpl
        exact h1.nonempty _ _ hpl
    · intro sid2 p
      dsimp only
      by_cases hp : p = pw
      · subst hp
        constructor
        · rintro ⟨l, hpl, hmem⟩
          rw [lookupA_setA_self] at hpl
          cases hpl
          simp only [List.mem_singleton] at hmem
          subst hmem
          exact ⟨news, by rw [hS', if_pos rfl], hpw_news⟩
        · rintro ⟨s2, hs2, hps2⟩
          rw [hS'] at hs2
          by_cases hx : sid2 = sid
          · subst hx
            exact ⟨[sid2], lookupA_setA_self _ _ _, by simp⟩
          · rw [if_neg hx] at hs2
            obtain ⟨l, hpl, hmem⟩ := (h1.agree sid2 p).2 ⟨s2, hs2, hps2⟩
            rw [hU1] at hpl
            cases hpl
      · constructor
        · rintro ⟨l, hpl, hmem⟩
          rw [lookupA_setA_ne _ _ _ _ hp] at hpl
          have hne : sid2 ≠ sid := hnot p l sid2 hpl hmem
          obtain ⟨s2, hs2, hps2⟩ := (h1.agree sid2 p).1 ⟨l, hpl, hmem⟩
          exact ⟨s2, by rw [hS', if_neg hne]; exact hs2, hps2⟩
        · rintro ⟨s2, hs2, hps2⟩
          rw [hS'] at hs2
          by_cases hx : sid2 = sid
          · rw [if_pos hx] at hs2
            cases hs2
            exact absurd (hpw_news ▸ hps2 : pw = p) (fun hh => hp hh.symm)
          · rw [if_neg hx] at hs2
            obtain ⟨l, hpl, hmem⟩ := (h1.agree sid2 p).2 ⟨s2, hs2, hps2⟩
            exact ⟨l, by rw [lookupA_setA_ne _ _ _ _ hp]; exact hpl, hmem⟩
    · intro p l hpl
      dsimp only at hpl
      by_cases hp : p = pw
      · subst hp
        rw [lookupA_setA_self] at hpl
        cases hpl
        simp [MAX_SESSIONS_PER_USER]
      · rw [lookupA_setA_ne _ _ _ _ hp] at hpl
        exact h1.bound _ _ hpl
    · intro p l hpl
      dsimp only at hpl ⊢
      by_cases hp : p = pw
      · subst hp
        rw [lookupA_setA_self] at hpl
        cases hpl
        simp
      · rw [lookupA_setA_ne _ _ _ _ hp] at hpl
        refine List.Pairwise.imp_of_mem ?_ (h1.sorted _ _ hpl)
        intro a b ha hb hab
        rw [hcA p l a hpl ha, hcA p l b hpl hb]
        exact hab
    · intro sid2 s2 hs2
      dsimp only at hs2
      rw [hS'] at hs2
      by_cases hx : sid2 = sid
      · rw [if_pos hx] at hs2
        cases hs2
        exact ⟨le_refl _, le_refl _⟩
      · rw [if_neg hx] at hs2
        exact ⟨le_trans (h1.clockS _ _ hs2).1 hck,
          le_trans (h1.clockS _ _ hs2).2 hck⟩
  | some l0 =>
    have hl0nd : l0.Nodup := h1.nodupL _ _ hU1
    have hsid0 : sid ∉ l0 := fun hmem => hnot pw l0 sid hU1 hmem rfl
    have hadd : addS l0 sid = l0 ++ [sid] := addS_of_not_mem _ _ hsid0
    refine ⟨nodup_keys_setA _ _ _ h1.nodupS, nodup_keys_setA _ _ _ h1.nodupU,
      ?_, ?_, ?_, ?_, ?_, ?_⟩
    · intro p l hpl
      dsimp only at hpl
      by_cases hp : p = pw
      · subst hp
        rw [lookupA_setA_self] at hpl
        cases hpl
        rw [hadd]
        simp only [List.nodup_append, List.nodup_cons, List.not_mem_nil,
          not_false_iff, List.nodup_nil, and_true, true_and]
        refine ⟨hl0nd, ?_⟩
        intro a ha
        simp only [List.mem_singleton]
        intro haeq
        subst haeq
        exact hsid0 ha
      · rw [lookupA_setA_ne _ _ _ _ hp] at hpl
        exact h1.nodupL _ _ hpl
    · intro p l hpl
      dsimp only at hpl
      by_cases hp : p = pw
      · subst hp
        rw [lookupA_setA_self] at hpl
        cases hpl
        rw [hadd]
        simp
      · rw [lookupA_setA_ne _ _ _ _ hp] at hpl
        exact h1.nonempty _ _ hpl
    · intro sid2 p
      dsimp only
      by_cases hp : p = pw
      · subst hp
        constructor
        · rintro ⟨l, hpl, hmem⟩
          rw [lookupA_setA_self] at hpl
          cases hpl
          rw [hadd] at hmem
          simp only [List.mem_append, List.mem_singleton] at hmem
          rcases hmem with hmem | hmem
          · have hne : sid2 ≠ sid := hnot p l0 sid2 hU1 hmem
            obtain ⟨s2, hs2, hps2⟩ := (h1.agree sid2 p).1 ⟨l0, hU1, hmem⟩
            exact ⟨s2, by rw [hS', if_neg hne]; exact hs2, hps2⟩
          · subst hmem
            exact ⟨news, by rw [hS', if_pos rfl], hpw_news⟩
        · rintro ⟨s2, hs2, hps2⟩
          rw [hS'] at hs2
          by_cases hx : sid2 = sid
          · subst hx
            refine ⟨addS l0 sid2, lookupA_setA_self _ _ _, ?_⟩
            rw [hadd]
            simp
          · rw [if_neg hx] at hs2
            obtain ⟨l, hpl, hmem⟩ := (h1.agree sid2 p).2 ⟨s2, hs2, hps2⟩
            rw [hU1] at hpl
            cases hpl
            refine ⟨addS l0 sid, lookupA_setA_self _ _ _, ?_⟩
            rw [hadd]
            simp [hmem]
      · constructor
        · rintro ⟨l, hpl, hmem⟩
          rw [lookupA_setA_ne _ _ _ _ hp] at hpl
          have hne : sid2 ≠ sid := hnot p l sid2 hpl hmem
          obtain ⟨s2, hs2, hps2⟩ := (h1.agree sid2 p).1 ⟨l, hpl, hmem⟩
          exact ⟨s2, by rw [hS', if_neg hne]; exact hs2, hps2⟩
        · rintro ⟨s2, hs2, hps2⟩
          rw [hS'] at hs2
          by_cases hx : sid2 = sid
          · rw [if_pos hx] at hs2
            cases hs2
            exact absurd (hpw_news ▸ hps2 : pw = p) (fun hh => hp hh.symm)
          · rw [if_neg hx] at hs2
            obtain ⟨l, hpl, hmem⟩ := (h1.agree sid2 p).2 ⟨s2, hs2, hps2⟩
            exact ⟨l, by rw [lookupA_setA_ne _ _ _ _ hp]; exact hpl, hmem⟩
    · intro p l hpl
      dsimp only at hpl
      by_cases hp : p = pw
      · subst hp
        rw [lookupA_setA_self] at hpl
        cases hpl
        rw [hadd]
        have hb4 := hbd l0 hU1
        simp only [List.length_append, List.length_singleton]
        unfold MAX_SESSIONS_PER_USER
        omega
      · rw [lookupA_setA_ne _ _ _ _ hp] at hpl
        exact h1.bound _ _ hpl
    · intro p l hpl
      dsimp only at hpl ⊢
      by_cases hp : p = pw
      · subst hp
        rw [lookupA_setA_self] at hpl
        cases hpl
        rw [hadd]
        rw [List.pairwise_append]
        refine ⟨?_, by simp, ?_⟩
        · refine List.Pairwise.imp_of_mem ?_ (h1.sorted _ _ hU1)
          intro a b ha hb hab
          rw [hcA p l0 a hU1 ha, hcA p l0 b hU1 hb]
          exact hab
        · intro a ha b hb
          simp only [List.mem_singleton] at hb
          subst hb
          rw [hcA p l0 a hU1 ha, hcsid]
          exact hcnow p l0 a hU1 ha
      · rw [lookupA_setA_ne _ _ _ _ hp] at hpl
        refine List.Pairwise.imp_of_mem ?_ (h1.sorted _ _ hpl)
        intro a b ha hb hab
        rw [hcA p l a hpl ha, hcA p l b hpl hb]
        exact hab
    · intro sid2 s2 hs2
      dsimp only at hs2
      rw [hS'] at hs2
      by_cases hx : sid2 = sid
      · rw [if_pos hx] at hs2
        cases hs2
        exact ⟨le_refl _, le_refl _⟩
      · rw [if_neg hx] at hs2
        exact ⟨le_trans (h1.clockS _ _ hs2).1 hck,
          le_trans (h1.clockS _ _ hs2).2 hck⟩

end Sessions

namespace Sessions

open AList SetOps

theorem createSession_eq_no_evict (st : St) (sid pw di : String)
    (ws : Option Nat) (now : Nat)
    (hlen : ((lookupA st.userSessions pw).getD []).length <
      MAX_SESSIONS_PER_USER) :
    createSession st sid pw di ws now =
      (⟨setA st.sessions sid ⟨sid, pw, di, now, now, true, ws⟩,
        (match lookupA st.userSessions pw with
         | none => setA st.userSessions pw [sid]
         | some l => setA st.userSessions pw (addS l sid)), now⟩,
       ⟨sid, pw, di, now, now, true, ws⟩, []) := by
  unfold createSession
  dsimp only
  rw [if_neg (Nat.not_le.mpr hlen)]

theorem createSession_eq_evict (st : St) (sid pw di : String)
    (ws : Option Nat) (now : Nat) (l : List String) (oldest : String)
    (restl : List String) (hU : lookupA st.userSessions pw = some l)
    (hlen : MAX_SESSIONS_PER_USER ≤ l.length) (hl : l = oldest :: restl) :
    createSession st sid pw di ws now =
      ((fun r =>
        ((⟨setA r.1.sessions sid ⟨sid, pw, di, now, now, true, ws⟩,
          (match lookupA r.1.userSessions pw with
           | none => setA r.1.userSessions pw [sid]
           | some l2 => setA r.1.userSessions pw (addS l2 sid)), now⟩ : St),
         (⟨sid, pw, di, now, now, true, ws⟩ : Session), r.2.2))
        (destroySession st oldest "max_sessions_exceeded")) := by
  unfold createSession
  dsimp only
  rw [hU]
  simp only [Option.getD_some]
  rw [if_pos hlen, hl]

/-- Lookup of the destroyed session's own password set after
`destroySession`. -/
theorem destroy_userSessions_lookup_self (st : St) (oldest reason : String)
    (sOld : Session) (l : List String) (h : Inv st)
    (hsOld : lookupA st.sessions oldest = some sOld)
    (hU : lookupA st.userSessions sOld.password = some l) :
    lookupA (destroySession st oldest reason).1.userSessions
        sOld.password =
      if delS l oldest = [] then none else some (delS l oldest) := by
  unfold destroySession
  rw [hsOld]
  dsimp only
  rw [hU]
  dsimp only
  by_cases he : delS l oldest = []
  · rw [if_pos he, if_pos he]
    exact lookupA_eraseA_self _ _ h.nodupU
  · rw [if_neg he, if_neg he]
    exact lookupA_setA_self _ _ _

theorem destroy_events (st : St) (sid reason : String) (s : Session)
    (hs : lookupA st.sessions sid = some s) :
    (destroySession st sid reason).2.2 = [⟨sid, reason⟩] := by
  unfold destroySession
  rw [hs]

theorem create_inv (st : St) (sid pw di : String) (ws : Option Nat)
    (now : Nat) (h : Inv st) (hnow : st.clock ≤ now)
    (hfresh : lookupA st.sessions sid = none) :
    Inv (createSession st sid pw di ws now).1 := by
  by_cases hlen :
      ((lookupA st.userSessions pw).getD []).length < MAX_SESSIONS_PER_USER
  · rw [createSession_eq_no_evict st sid pw di ws now hlen]
    refine insert_inv st sid pw di ws now h hnow hfresh ?_
    intro l hU
    rw [hU] at hlen
    simp only [Option.getD_some] at hlen
    unfold MAX_SESSIONS_PER_USER at hlen
    omega
  · push_neg at hlen
    cases hU : lookupA st.userSessions pw with
    | none =>
      rw [hU] at hlen
      simp [MAX_SESSIONS_PER_USER] at hlen
    | some l =>
      rw [hU] at hlen
      simp only [Option.getD_some] at hlen
      obtain ⟨oldest, restl, hl⟩ : ∃ o r, l = o :: r := by
        cases l with
        | nil => simp [MAX_SESSIONS_PER_USER] at hlen
        | cons o r => exact ⟨o, r, rfl⟩
      rw [createSession_eq_evict st sid pw di ws now l oldest restl hU hlen hl]
      have hmem : oldest ∈ l := by rw [hl]; simp
      obtain ⟨sOld, hsOld, hpwOld⟩ :=
        (h.agree oldest pw).1 ⟨l, hU, hmem⟩
      have h1 : Inv (destroySession st oldest "max_sessions_exceeded").1 :=
        destroy_inv st oldest _ h
      have hck1 :
          (destroySession st oldest "max_sessions_exceeded").1.clock ≤ now := by
        rw [destroy_clock]; exact hnow
      have hf1 : lookupA
          (destroySession st oldest "max_sessions_exceeded").1.sessions sid =
          none := by
        rw [destroy_sessions_lookup st oldest _ h.nodupS]
        by_cases hx : sid = oldest
        · simp [hx]
        · simp [hx, hfresh]
      have hUd : lookupA
          (destroySession st oldest "max_sessions_exceeded").1.userSessions pw =
          if delS l oldest = [] then none else some (delS l oldest) := by
        have := destroy_userSessions_lookup_self st oldest
          "max_sessions_exceeded" sOld l h hsOld (by rw [hpwOld]; exact hU)
        rw [hpwOld] at this
        exact this
      have hbd1 : ∀ l2, lookupA
          (destroySession st oldest "max_sessions_exceeded").1.userSessions pw =
          some l2 → l2.length ≤ 4 := by
        intro l2 h2
        rw [hUd] at h2
        by_cases he : delS l oldest = []
        · rw [if_pos he] at h2; cases h2
        · rw [if_neg he] at h2
          cases h2
          have hb5 : l.length ≤ 5 := h.bound _ _ hU
          rw [hl] at hb5 ⊢
          rw [delS_cons_head]
          simp only [List.length_cons] at hb5
          omega
      exact insert_inv _ sid pw di ws now h1 hck1 hf1 hbd1

theorem clock_bump (st : St) (now : Nat) (h : Inv st)
    (hc : st.clock ≤ now) :
    Inv ⟨st.sessions, st.userSessions, now⟩ :=
  ⟨h.nodupS, h.nodupU, h.nodupL, h.nonempty, h.agree, h.bound, h.sorted,
   fun sid s hs => ⟨le_trans (h.clockS sid s hs).1 hc,
     le_trans (h.clockS sid s hs).2 hc⟩⟩

theorem touch_upd (st : St) (sid : String) (s : Session) (now : Nat)
    (h : Inv st) (hs : lookupA st.sessions sid = some s)
    (hc : st.clock ≤ now) :
    Inv ⟨setA st.sessions sid { s with lastActivity := now },
      st.userSessions, now⟩ := by
  have hS' : ∀ x,
      lookupA (setA st.sessions sid { s with lastActivity := now }) x =
      if x = sid then some { s with lastActivity := now }
      else lookupA st.sessions x := by
    intro x
    by_cases hx : x = sid
    · subst hx; simp [lookupA_setA_self]
    · simp [hx, lookupA_setA_ne _ _ _ _ hx]
  have hcA : ∀ x,
      cAt (setA st.sessions sid { s with lastActivity := now }) x =
      cAt st.sessions x := by
    intro x
    by_cases hx : x = sid
    · subst hx
      unfold cAt
      rw [hS', if_pos rfl, hs]
    · exact cAt_congr _ _ x (by rw [hS', if_neg hx])
  refine ⟨nodup_keys_setA _ _ _ h.nodupS, h.nodupU, h.nodupL, h.nonempty,
    ?_, h.bound, ?_, ?_⟩
  · intro sid2 p
    rw [h.agree sid2 p]
    constructor
    · rintro ⟨s2, hs2, hps2⟩
      by_cases hx : sid2 = sid
      · subst hx
        rw [hs2] at hs
        cases hs
        exact ⟨{ s with lastActivity := now }, by rw [hS', if_pos rfl],
          hps2⟩
      · exact ⟨s2, by rw [hS', if_neg hx]; exact hs2, hps2⟩
    · rintro ⟨s2, hs2, hps2⟩
      rw [hS'] at hs2
      by_cases hx : sid2 = sid
      · rw [if_pos hx] at hs2
        cases hs2
        subst hx
        exact ⟨s, hs, hps2⟩
      · rw [if_neg hx] at hs2
        exact ⟨s2, hs2, hps2⟩
  · intro p l hpl
    refine List.Pairwise.imp_of_mem ?_ (h.sorted _ _ hpl)
    intro a b _ _ hab
    rw [hcA a, hcA b]
    exact hab
  · intro sid2 s2 hs2
    dsimp only at hs2
    rw [hS'] at hs2
    by_cases hx : sid2 = sid
    · rw [if_pos hx] at hs2
      cases hs2
      exact ⟨le_trans (h.clockS _ _ hs).1 hc, le_refl _⟩
    · rw [if_neg hx] at hs2
      exact ⟨le_trans (h.clockS _ _ hs2).1 hc,
        le_trans (h.clockS _ _ hs2).2 hc⟩

theorem get_inv (st : St) (sid : String) (now : Nat) (h : Inv st)
    (hc : st.clock ≤ now) : Inv (getSession st sid now).1 := by
  unfold getSession
  cases hl : lookupA st.sessions sid with
  | none => exact clock_bump st now h hc
  | some s =>
    dsimp only
    by_cases he : s.isExpired now
    · rw [if_pos he]
      have h1 := destroy_inv st sid "expired" h
      have hck : (destroySession st sid "expired").1.clock ≤ now := by
        rw [destroy_clock]; exact hc
      exact clock_bump _ now h1 hck
    · rw [if_neg he]
      exact clock_bump st now h hc

theorem getSession_some (st : St) (sid : String) (now : Nat) (s : Session)
    (hr : (getSession st sid now).2.1 = some s) :
    (getSession st sid now).1 = ⟨st.sessions, st.userSessions, now⟩ ∧
      lookupA st.sessions sid = some s := by
  unfold getSession at hr ⊢
  cases hl : lookupA st.sessions sid with
  | none =>
    rw [hl] at hr
    dsimp only at hr
    cases hr
  | some s2 =>
    rw [hl] at hr
    dsimp only at hr ⊢
    by_cases he : s2.isExpired now
    · rw [if_pos he] at hr
      dsimp only at hr
      cases hr
    · rw [if_neg he] at hr ⊢
      dsimp only at hr
      cases hr
      exact ⟨rfl, rfl⟩

theorem validate_inv (st : St) (sid : String) (now : Nat) (h : Inv st)
    (hc : st.clock ≤ now) : Inv (validateSession st sid now).1 := by
  unfold validateSession
  dsimp only
  cases hr : (getSession st sid now).2.1 with
  | none => exact get_inv st sid now h hc
  | some s =>
    obtain ⟨hst, hs⟩ := getSession_some st sid now s hr
    rw [hst]
    exact touch_upd st sid s now h hs hc

theorem touch_op_inv (st : St) (sid : String) (now : Nat) (h : Inv st)
    (hc : st.clock ≤ now) : Inv (touchSession st sid now).1 := by
  unfold touchSession
  cases hl : lookupA st.sessions sid with
  | none => exact clock_bump st now h hc
  | some s => exact touch_upd st sid s now h hl hc

theorem cleanupLoop_inv (now : Nat) (ids : List String) (st : St)
    (h : Inv st) :
    Inv (cleanupLoop now st ids).1 ∧
      (cleanupLoop now st ids).1.clock = st.clock := by
  induction ids generalizing st with
  | nil => exact ⟨h, rfl⟩
  | cons sid rest ih =>
    unfold cleanupLoop
    cases hl : lookupA st.sessions sid with
    | none => exact ih st h
    | some s =>
      dsimp only
      by_cases he : s.isExpired now
      · rw [if_pos he]
        dsimp only
        obtain ⟨h1, hck⟩ := ih _ (destroy_inv st sid "expired" h)
        exact ⟨h1, by rw [hck, destroy_clock]⟩
      · rw [if_neg he]
        exact ih st h

theorem cleanup_inv (st : St) (now : Nat) (h : Inv st)
    (hc : st.clock ≤ now) : Inv (cleanupExpiredSessions st now).1 := by
  unfold cleanupExpiredSessions
  obtain ⟨h1, hck⟩ := cleanupLoop_inv now (st.sessions.map Prod.fst) st h
  exact clock_bump _ now h1 (le_trans (le_of_eq hck) hc)

theorem inv_init : Inv initSt := by
  refine ⟨?_, ?_, ?_, ?_, ?_, ?_, ?_, ?_⟩ <;> simp [initSt, lookupA]

theorem reachable_inv (st : St) (h : Reachable st) : Inv st := by
  induction h with
  | init => exact inv_init
  | step hr hs ih =>
    cases hs with
    | create sid pw di ws now hnow hfresh =>
      exact create_inv _ sid pw di ws now ih hnow hfresh
    | destroy sid reason => exact destroy_inv _ sid reason ih
    | get sid now hnow => exact get_inv _ sid now ih hnow
    | touch sid now hnow => exact touch_op_inv _ sid now ih hnow
    | validate sid now hnow => exact validate_inv _ sid now ih hnow
    | kick sid => exact destroy_inv _ sid "kicked" ih
    | cleanup now hnow => exact cleanup_inv _ now ih hnow

end Sessions

namespace AList

variable {κ β : Type} [DecidableEq κ]

theorem lookupA_eq_some_of_mem (l : List (κ × β)) (k : κ) (v : β)
    (hnd : (l.map Prod.fst).Nodup) (hm : (k, v) ∈ l) :
    lookupA l k = some v := by
  induction l with
  | nil => simp at hm
  | cons hd tl ih =>
    obtain ⟨a, b⟩ := hd
    simp only [List.map_cons, List.nodup_cons] at hnd
    rcases List.mem_cons.1 hm with hm | hm
    · cases hm
      simp [lookupA]
    · have ha : ¬ (a = k) := by
        intro hh
        subst hh
        exact hnd.1 (by simpa using List.mem_map_of_mem Prod.fst hm)
      simp only [lookupA, if_neg ha]
      exact ih hnd.2 hm

theorem mem_of_lookupA_eq_some (l : List (κ × β)) (k : κ) (v : β)
    (h : lookupA l k = some v) : (k, v) ∈ l := by
  induction l with
  | nil => simp [lookupA] at h
  | cons hd tl ih =>
    obtain ⟨a, b⟩ := hd
    by_cases ha : a = k
    · subst ha
      simp only [lookupA, if_pos rfl] at h
      cases h
      simp
    · simp only [lookupA, if_neg ha] at h
      simp [ih h]

end AList

namespace Sessions

open AList SetOps

/-- Under the invariant, the number of stored sessions with password `p`
is the size of the set `userSessions` holds for `p`. -/
theorem count_eq (st : St) (h : Inv st) (p : String) :
    countSessions st p = ((lookupA st.userSessions p).getD []).length := by
  unfold countSessions
  have hsub : ((st.sessions.filter (fun e => e.2.password = p)).map
      Prod.fst).Sublist (st.sessions.map Prod.fst) :=
    (List.filter_sublist _).map _
  have hknd : ((st.sessions.filter (fun e => e.2.password = p)).map
      Prod.fst).Nodup := hsub.nodup h.nodupS
  have hmemk : ∀ x,
      (x ∈ (st.sessions.filter (fun e => e.2.password = p)).map Prod.fst) ↔
      (∃ s, lookupA st.sessions x = some s ∧ s.password = p) := by
    intro x
    constructor
    · intro hx
      obtain ⟨e, he, hex⟩ := List.mem_map.1 hx
      obtain ⟨hes, hep⟩ := List.mem_filter.1 he
      obtain ⟨a, b⟩ := e
      cases hex
      refine ⟨b, lookupA_eq_some_of_mem _ _ _ h.nodupS hes, ?_⟩
      simpa using hep
    · rintro ⟨s, hs, hps⟩
      refine List.mem_map.2 ⟨(x, s), ?_, rfl⟩
      refine List.mem_filter.2 ⟨mem_of_lookupA_eq_some _ _ _ hs, ?_⟩
      simpa using hps
  cases hU : lookupA st.userSessions p with
  | none =>
    simp only [Option.getD_none, List.length_nil]
    rw [← List.length_map _ Prod.fst]
    rw [List.length_eq_zero]
    by_contra hne
    obtain ⟨x, hx⟩ := List.exists_mem_of_ne_nil _ hne
    obtain ⟨s, hs, hps⟩ := (hmemk x).1 hx
    obtain ⟨l, hl, _⟩ := (h.agree x p).2 ⟨s, hs, hps⟩
    rw [hU] at hl
    cases hl
  | some l =>
    simp only [Option.getD_some]
    have hlnd : l.Nodup := h.nodupL _ _ hU
    have hmeml : ∀ x,
        (x ∈ (st.sessions.filter (fun e => e.2.password = p)).map Prod.fst) ↔
        x ∈ l := by
      intro x
      rw [hmemk x, ← h.agree x p]
      constructor
      · rintro ⟨l2, hl2, hx2⟩
        rw [hU] at hl2
        cases hl2
        exact hx2
      · intro hx
        exact ⟨l, hU, hx⟩
    rw [← List.length_map _ Prod.fst]
    have hfs : ((st.sessions.filter (fun e => e.2.password = p)).map
        Prod.fst).toFinset = l.toFinset := by
      ext x
      simp only [List.mem_toFinset]
      exact hmeml x
    calc ((st.sessions.filter (fun e => e.2.password = p)).map
          Prod.fst).length
        = ((st.sessions.filter (fun e => e.2.password = p)).map
          Prod.fst).toFinset.card := (List.toFinset_card_of_nodup hknd).symm
      _ = l.toFinset.card := by rw [hfs]
      _ = l.length := List.toFinset_card_of_nodup hlnd

end Sessions

namespace Sessions

open AList SetOps

theorem exampleOneSession_reachable : Reachable exampleOneSession :=
  Reachable.step Reachable.init
    (Step.create initSt "sess_a" "alfa" "dev" none 5 (by decide) (by decide))

theorem exampleFiveSessions_reachable : Reachable exampleFiveSessions :=
  Reachable.step
    (Reachable.step
      (Reachable.step
        (Reachable.step
          (Reachable.step Reachable.init
            (Step.create initSt "s1" "alfa" "d" none 1 (by decide)
              (by decide)))
          (Step.create ex1 "s2" "alfa" "d" none 2 (by decide) (by decide)))
        (Step.create ex2 "s3" "alfa" "d" none 3 (by decide) (by decide)))
      (Step.create ex3 "s4" "alfa" "d" none 4 (by decide) (by decide)))
    (Step.create ex4 "s5" "alfa" "d" none 5 (by decide) (by decide))

/-- C10: in every state reachable through the session operations, the
two indices agree — a session id is in `userSessions[p]` exactly when
the `sessions` map stores it with password `p` (so for exactly one
password), and `userSessions` never maps a password to an empty set. -/
theorem sessionIndicesAgree (st : St) (hr : Reachable st) :
    (∀ sid p, (∃ l, lookupA st.userSessions p = some l ∧ sid ∈ l) ↔
      (∃ s, lookupA st.sessions sid = some s ∧ s.password = p)) ∧
    (∀ sid p q lp lq, lookupA st.userSessions p = some lp → sid ∈ lp →
      lookupA st.userSessions q = some lq → sid ∈ lq → p = q) ∧
    (∀ p l, lookupA st.userSessions p = some l → l ≠ []) := by
  have h := reachable_inv st hr
  refine ⟨h.agree, ?_, h.nonempty⟩
  intro sid p q lp lq hp hsp hq hsq
  obtain ⟨s1, hs1, hps1⟩ := (h.agree sid p).1 ⟨lp, hp, hsp⟩
  obtain ⟨s2, hs2, hps2⟩ := (h.agree sid q).1 ⟨lq, hq, hsq⟩
  rw [hs1] at hs2
  cases hs2
  rw [← hps1, ← hps2]

theorem sessionIndicesAgree_witness :
    ((∃ l, lookupA exampleOneSession.userSessions "alfa" = some l ∧
        "sess_a" ∈ l) ↔
      (∃ s, lookupA exampleOneSession.sessions "sess_a" = some s ∧
        s.password = "alfa")) ∧
    ("sess_a" :: []) ≠ [] :=
  ⟨(sessionIndicesAgree exampleOneSession exampleOneSession_reachable).1
      "sess_a" "alfa",
   (sessionIndicesAgree exampleOneSession exampleOneSession_reachable).2.2
      "alfa" ("sess_a" :: []) (by decide)⟩

/-- C7: in every reachable state each password holds at most
`MAX_SESSIONS_PER_USER` sessions, and `createSession` on a password
already holding that many first destroys, with reason
`max_sessions_exceeded`, a session of that password whose `createdAt`
is least, before storing the new session; afterwards the password again
holds exactly `MAX_SESSIONS_PER_USER` sessions. -/
theorem sessionCapAndOldestEviction (st : St) (hr : Reachable st) :
    (∀ p, countSessions st p ≤ MAX_SESSIONS_PER_USER) ∧
    (∀ sid p di ws now, st.clock ≤ now →
      lookupA st.sessions sid = none →
      countSessions st p = MAX_SESSIONS_PER_USER →
      ∃ oldest sOld,
        lookupA st.sessions oldest = some sOld ∧
        sOld.password = p ∧
        (∀ x sx, lookupA st.sessions x = some sx → sx.password = p →
          sOld.createdAt ≤ sx.createdAt) ∧
        (createSession st sid p di ws now).2.2 =
          [⟨oldest, "max_sessions_exceeded"⟩] ∧
        lookupA (createSession st sid p di ws now).1.sessions oldest =
          none ∧
        lookupA (createSession st sid p di ws now).1.sessions sid =
          some ⟨sid, p, di, now, now, true, ws⟩ ∧
        countSessions (createSession st sid p di ws now).1 p =
          MAX_SESSIONS_PER_USER) := by
  have h := reachable_inv st hr
  constructor
  · intro p
    rw [count_eq st h p]
    cases hU : lookupA st.userSessions p with
    | none => simp [MAX_SESSIONS_PER_USER]
    | some l => simpa using h.bound _ _ hU
  · intro sid p di ws now hnow hfresh hcount
    rw [count_eq st h p] at hcount
    cases hU : lookupA st.userSessions p with
    | none =>
      rw [hU] at hcount
      simp [MAX_SESSIONS_PER_USER] at hcount
    | some l =>
      rw [hU] at hcount
      simp only [Option.getD_some] at hcount
      obtain ⟨oldest, restl, hl⟩ : ∃ o r, l = o :: r := by
        cases l with
        | nil => simp [MAX_SESSIONS_PER_USER] at hcount
        | cons o r => exact ⟨o, r, rfl⟩
      have hmemo : oldest ∈ l := by rw [hl]; simp
      obtain ⟨sOld, hsOld, hpwOld⟩ := (h.agree oldest p).1 ⟨l, hU, hmemo⟩
      have hle : MAX_SESSIONS_PER_USER ≤ l.length := le_of_eq hcount.symm
      have hne_oldest_sid : oldest ≠ sid := by
        intro hh
        rw [hh, hfresh] at hsOld
        cases hsOld
      have hrestl_len : restl.length = 4 := by
        rw [hl] at hcount
        simp only [List.length_cons, MAX_SESSIONS_PER_USER] at hcount
        omega
      have hrestl_ne : restl ≠ [] := by
        intro hh
        rw [hh] at hrestl_len
        simp at hrestl_len
      have hsidrestl : sid ∉ restl := by
        intro hmem
        have hmem2 : sid ∈ l := by rw [hl]; simp [hmem]
        obtain ⟨s2, hs2, _⟩ := (h.agree sid p).1 ⟨l, hU, hmem2⟩
        rw [hfresh] at hs2
        cases hs2
      have hmin : ∀ x sx, lookupA st.sessions x = some sx →
          sx.password = p → sOld.createdAt ≤ sx.createdAt := by
        intro x sx hx hpx
        obtain ⟨lx, hUx, hmemx⟩ := (h.agree x p).2 ⟨sx, hx, hpx⟩
        rw [hU] at hUx
        cases hUx
        by_cases hxo : x = oldest
        · subst hxo
          rw [hx] at hsOld
          cases hsOld
          exact le_refl _
        · have hsorted := h.sorted _ _ hU
          rw [hl] at hsorted hmemx
          rcases List.mem_cons.1 hmemx with hmx | hmx
          · exact absurd hmx hxo
          · have hrel := (List.pairwise_cons.1 hsorted).1 x hmx
            unfold cAt at hrel
            rw [hsOld, hx] at hrel
            exact hrel
      have hUd : lookupA
          (destroySession st oldest "max_sessions_exceeded").1.userSessions
          p = some restl := by
        have hstep := destroy_userSessions_lookup_self st oldest
          "max_sessions_exceeded" sOld l h hsOld (by rw [hpwOld]; exact hU)
        rw [hpwOld] at hstep
        rw [hstep, hl, delS_cons_head, if_neg hrestl_ne]
      have hpostInv : Inv (createSession st sid p di ws now).1 :=
        create_inv st sid p di ws now h hnow hfresh
      rw [createSession_eq_evict st sid p di ws now l oldest restl hU hle hl]
      rw [createSession_eq_evict st sid p di ws now l oldest restl hU hle hl]
        at hpostInv
      dsimp only
      dsimp only at hpostInv
      refine ⟨oldest, sOld, hsOld, hpwOld, hmin, ?_, ?_, ?_, ?_⟩
      · exact destroy_events st oldest _ sOld hsOld
      · rw [lookupA_setA_ne _ _ _ _ hne_oldest_sid]
        rw [destroy_sessions_lookup st oldest _ h.nodupS]
        simp
      · exact lookupA_setA_self _ _ _
      · rw [count_eq _ hpostInv p]
        dsimp only
        rw [hUd]
        dsimp only
        rw [lookupA_setA_self]
        rw [addS_of_not_mem _ _ hsidrestl]
        simp only [Option.getD_some, List.length_append,
          List.length_singleton, hrestl_len]
        rfl

theorem sessionCapAndOldestEviction_witness :
    countSessions exampleFiveSessions "alfa" = 5 ∧
    countSessions exampleFiveSessions "alfa" ≤ MAX_SESSIONS_PER_USER ∧
    (∃ oldest sOld,
      lookupA exampleFiveSessions.sessions oldest = some sOld ∧
      sOld.password = "alfa" ∧
      (∀ x sx, lookupA exampleFiveSessions.sessions x = some sx →
        sx.password = "alfa" → sOld.createdAt ≤ sx.createdAt) ∧
      (createSession exampleFiveSessions "s6" "alfa" "d" none 6).2.2 =
        [⟨"s1", "max_sessions_exceeded"⟩] ∧
      lookupA (createSession exampleFiveSessions "s6" "alfa" "d" none 6).1.sessions
        "s1" = none ∧
      countSessions (createSession exampleFiveSessions "s6" "alfa" "d" none 6).1
        "alfa" = MAX_SESSIONS_PER_USER) := by
  have happ := sessionCapAndOldestEviction exampleFiveSessions
    exampleFiveSessions_reachable
  refine ⟨by decide, happ.1 "alfa", ?_⟩
  obtain ⟨oldest, sOld, h1, h2, h3, h4, h5, _h6, h7⟩ :=
    happ.2 "s6" "alfa" "d" none 6 (by decide) (by decide) (by decide)
  have hconc : (createSession exampleFiveSessions "s6" "alfa" "d" none 6).2.2 =
      [⟨"s1", "max_sessions_exceeded"⟩] := by decide
  rw [hconc] at h4
  have holdest : "s1" = oldest := by
    injection h4 with h4a _
    injection h4a
  subst holdest
  exact ⟨"s1", sOld, h1, h2, h3, hconc, h5, h7⟩

end Sessions

namespace FileHandler

open AList

theorem readC_setChunk_self (cs : List (Option (List Nat))) (i : Nat)
    (c : List Nat) : readC (setChunk cs i c) i = some c := by
  induction i generalizing cs with
  | zero => cases cs <;> simp [setChunk, readC]
  | succ i ih => cases cs <;> simp [setChunk, readC, ih]

theorem readC_setChunk_ne (cs : List (Option (List Nat))) (i : Nat)
    (c : List Nat) (j : Nat) (h : j ≠ i) :
    readC (setChunk cs i c) j = readC cs j := by
  induction i generalizing cs j with
  | zero =>
    cases cs <;> cases j <;> simp_all [setChunk, readC]
  | succ i ih =>
    cases cs with
    | nil =>
      cases j with
      | zero => simp [setChunk, readC]
      | succ j =>
        simp only [setChunk, readC]
        rw [ih [] j (fun hh => h (by rw [hh]))]
        simp [readC]
    | cons hd tl =>
      cases j with
      | zero => simp [setChunk, readC]
      | succ j =>
        simp only [setChunk, readC]
        exact ih tl j (fun hh => h (by rw [hh]))

theorem setChunk_length (cs : List (Option (List Nat))) (i : Nat)
    (c : List Nat) : (setChunk cs i c).length = max cs.length (i + 1) := by
  induction i generalizing cs with
  | zero => cases cs <;> simp [setChunk]
  | succ i ih =>
    cases cs <;> simp [setChunk, ih]
    omega

theorem readC_eq_get (cs : List (Option (List Nat))) (j : Nat)
    (h : j < cs.length) : readC cs j = cs.get ⟨j, h⟩ := by
  induction cs generalizing j with
  | nil => simp at h
  | cons hd tl ih =>
    cases j with
    | zero => simp [readC]
    | succ j => simpa [readC] using ih j (by simpa using h)

theorem eq_map_some_of_reads (cs : List (Option (List Nat)))
    (ps : List (List Nat)) (hlen : cs.length = ps.length)
    (hread : ∀ j (hj : j < ps.length), readC cs j = some (ps.get ⟨j, hj⟩)) :
    cs = ps.map some := by
  apply List.ext_get
  · simp [hlen]
  · intro j h1 h2
    have hj : j < ps.length := by simpa using h2
    rw [← readC_eq_get cs j h1, hread j hj]
    simp

theorem filterMap_id_map_some (ps : List (List Nat)) :
    (ps.map some).filterMap (fun c => c) = ps := by
  induction ps with
  | nil => rfl
  | cons hd tl ih => simp [ih]

theorem foldl_setChunk_read (il : List Nat) (g : Nat → List Nat)
    (cs : List (Option (List Nat))) (j : Nat) (hnd : il.Nodup) :
    readC (il.foldl (fun c i => setChunk c i (g i)) cs) j =
      if j ∈ il then some (g j) else readC cs j := by
  induction il generalizing cs with
  | nil => simp
  | cons i rest ih =>
    simp only [List.nodup_cons] at hnd
    simp only [List.foldl_cons]
    rw [ih _ hnd.2]
    by_cases hjr : j ∈ rest
    · simp [hjr, List.mem_cons]
    · by_cases hji : j = i
      · subst hji
        simp [hjr, readC_setChunk_self]
      · simp [hjr, hji, readC_setChunk_ne _ _ _ _ hji]

theorem foldl_setChunk_length_le (il : List Nat) (g : Nat → List Nat)
    (cs : List (Option (List Nat))) (k : Nat)
    (hin : ∀ i ∈ il, i + 1 ≤ k) (h0 : cs.length ≤ k) :
    (il.foldl (fun c i => setChunk c i (g i)) cs).length ≤ k := by
  induction il generalizing cs with
  | nil => exact h0
  | cons i rest ih =>
    simp only [List.foldl_cons]
    refine ih _ (fun x hx => hin x (by simp [hx])) ?_
    rw [setChunk_length]
    have := hin i (by simp)
    omega

theorem foldl_setChunk_length_mono (il : List Nat) (g : Nat → List Nat)
    (cs : List (Option (List Nat))) :
    cs.length ≤ (il.foldl (fun c i => setChunk c i (g i)) cs).length := by
  induction il generalizing cs with
  | nil => exact le_refl _
  | cons i rest ih =>
    simp only [List.foldl_cons]
    refine le_trans ?_ (ih _)
    rw [setChunk_length]
    omega

theorem foldl_setChunk_length_ge (il : List Nat) (g : Nat → List Nat)
    (cs : List (Option (List Nat))) (i : Nat) (hi : i ∈ il) :
    i + 1 ≤ (il.foldl (fun c i => setChunk c i (g i)) cs).length := by
  induction il generalizing cs with
  | nil => simp at hi
  | cons x rest ih =>
    simp only [List.foldl_cons]
    rcases List.mem_cons.1 hi with hi | hi
    · subst hi
      refine le_trans ?_ (foldl_setChunk_length_mono rest g _)
      rw [setChunk_length]
      omega
    · exact ih _ hi

/-- Effect of a run of `receiveChunk` calls on a live transfer: the
chunks array accumulates the decoded chunks, `receivedSize` adds every
decoded chunk's length (duplicates included), and the name, size and
password fields are unchanged. -/
theorem receiveChunk_fold (ds : List (Nat × List Char)) (tid : String)
    (fs : FState) (t : FileTransfer)
    (ht : lookupA fs.activeTransfers tid = some t)
    (hst : ¬(t.status = "cancelled" ∨ t.status = "failed")) :
    ∃ t', lookupA
      (ds.foldl (fun f d => (receiveChunk f tid d.1 d.2).1) fs).activeTransfers
      tid = some t' ∧
      t'.chunks = ds.foldl
        (fun cs d => setChunk cs d.1 (Base64.decode d.2)) t.chunks ∧
      t'.fileName = t.fileName ∧ t'.fileSize = t.fileSize ∧
      t'.password = t.password ∧
      ¬(t'.status = "cancelled" ∨ t'.status = "failed") ∧
      t'.receivedSize = t.receivedSize +
        (ds.map (fun d => (Base64.decode d.2).length)).sum := by
  induction ds generalizing fs t with
  | nil =>
    exact ⟨t, ht, rfl, rfl, rfl, rfl, hst, by simp⟩
  | cons d rest ih =>
    simp only [List.foldl_cons]
    have hrc : (receiveChunk fs tid d.1 d.2).1 =
        { fs with activeTransfers :=
            (setA fs.activeTransfers tid
              (t.addChunk (Base64.decode d.2) d.1)) } := by
      unfold receiveChunk
      rw [ht]
      dsimp only
      rw [if_neg hst]
    rw [hrc]
    obtain ⟨t', h1, h2, h3, h4, h5, h6, h7⟩ :=
      ih { fs with activeTransfers :=
            (setA fs.activeTransfers tid
              (t.addChunk (Base64.decode d.2) d.1)) }
        (t.addChunk (Base64.decode d.2) d.1)
        (lookupA_setA_self _ _ _) (by simp [FileTransfer.addChunk])
    refine ⟨t', h1, ?_, h3, h4, h5, h6, ?_⟩
    · rw [h2]
      rfl
    · rw [h7]
      simp only [FileTransfer.addChunk, List.map_cons, List.sum_cons]
      omega

end FileHandler

namespace FileHandler

/-- C4, counterexample: after the same six-byte chunk is delivered twice
at chunk index 0 of a 10-byte transfer, the chunks stored at distinct
indices total only six bytes, yet `receivedSize` is 12 — each
`addChunk` adds the chunk length even when it overwrites, so the claimed
invariant `receivedSize ≤ fileSize` fails. -/
theorem receivedSizeOvercountsDuplicateIndex :
    exampleDupTransfer.receivedSize = 12 ∧
    exampleDupTransfer.fileSize = 10 ∧
    ((exampleDupTransfer.chunks.filterMap (fun c => c)).map
      List.length).sum = 6 ∧
    ¬(exampleDupTransfer.receivedSize ≤ exampleDupTransfer.fileSize) := by
  decide

/-- C4, amended: for a live transfer with `receivedSize = 0`, after a
run of `file_chunk` deliveries at pairwise-distinct indices whose
decoded bytes total at most `fileSize`, the invariant
`receivedSize ≤ fileSize` does hold (each index is written once, so no
length is double-counted). -/
theorem receivedSizeBoundForDistinctIndices (fs : FState) (tid : String)
    (t : FileTransfer) (ds : List (Nat × List Char))
    (ht : lookupA fs.activeTransfers tid = some t)
    (hst : ¬(t.status = "cancelled" ∨ t.status = "failed"))
    (hrecv : t.receivedSize = 0)
    (_hnd : (ds.map Prod.fst).Nodup)
    (hsum : (ds.map (fun d => (Base64.decode d.2).length)).sum ≤ t.fileSize) :
    ∃ t', lookupA
      (ds.foldl (fun f d => (receiveChunk f tid d.1 d.2).1) fs).activeTransfers
      tid = some t' ∧ t'.receivedSize ≤ t'.fileSize := by
  obtain ⟨t', h1, _, _, h4, _, _, h7⟩ := receiveChunk_fold ds tid fs t ht hst
  refine ⟨t', h1, ?_⟩
  rw [h7, hrecv, h4]
  simpa using hsum

theorem receivedSizeBoundForDistinctIndices_witness :
    ∃ t', lookupA
      ([((0 : Nat), dupChunkData)].foldl
        (fun f d => (receiveChunk f "tr1" d.1 d.2).1)
        exampleFState).activeTransfers "tr1" = some t' ∧
      t'.receivedSize ≤ t'.fileSize :=
  receivedSizeBoundForDistinctIndices exampleFState "tr1" exampleTransfer
    [(0, dupChunkData)] (by decide) (by decide) rfl (by decide) (by decide)

end FileHandler

namespace FileHandler

/-- `startUpload` on an acceptable size and type: the recorded pending
transfer and the success result, explicitly. -/
theorem startUpload_ok (fn : String) (sz : Nat) (ty pw tidn : String)
    (t0 : Nat) (fs : FState) (hsz : sz ≤ MAX_FILE_SIZE)
    (hty : isValidFileType ty = true) :
    startUpload fn sz ty pw tidn t0 fs =
      ({ fs with activeTransfers := (setA fs.activeTransfers tidn
          ⟨tidn, fn, sz, ty, "upload", pw, [], 0, t0, "pending", none⟩) },
       ⟨true, none, some tidn, some CHUNK_SIZE,
        some ((sz + CHUNK_SIZE - 1) / CHUNK_SIZE)⟩) := by
  unfold startUpload
  rw [if_neg (by omega), if_neg (by simp [hty])]

/-- The result object of `completeUpload` on a present transfer. -/
theorem completeUpload_snd (fs : FState) (tid : String) (now : Nat)
    (t : FileTransfer) (ht : lookupA fs.activeTransfers tid = some t) :
    (completeUpload fs tid now).2 =
      ⟨true, none, t.fileName, t.fileSize,
       Base64.encode ((t.chunks.filterMap (fun c => c)).flatten)⟩ := by
  unfold completeUpload
  rw [ht]
  rfl

end FileHandler

namespace Relay

/-- A run of `handleFileChunk` calls from a recognised client only
rewrites the file-handler component of the server state. -/
theorem handleFileChunk_foldl (il : List Nat) (g : Nat → List Char)
    (cws : Nat) (tid : String) (ci : ClientInfo) :
    ∀ st : SSt, lookupA st.clients cws = some ci →
    il.foldl (fun s i => (handleFileChunk s cws tid i (g i)).1) st =
    { st with files :=
        (il.foldl (fun f i => (FileHandler.receiveChunk f tid i (g i)).1)
          st.files) } := by
  induction il with
  | nil => intro st _; rfl
  | cons i rest ih =>
    intro st hci
    simp only [List.foldl_cons]
    have h1 : (handleFileChunk st cws tid i (g i)).1 =
        { st with files := ((FileHandler.receiveChunk st.files tid i (g i)).1) }
        := by
      unfold handleFileChunk
      rw [hci]
      dsimp only
      by_cases hs : (FileHandler.receiveChunk st.files tid i (g i)).2.success
      · rw [if_pos hs]
      · rw [if_neg hs]
    rw [h1,
      ih { st with files := (FileHandler.receiveChunk st.files tid i (g i)).1 }
        hci]

end Relay

namespace Relay

/-- C6: for every byte string, every chunking of it into indexed pieces
and every permutation of the piece indices, after a successful
`file_upload_start` (acceptable size, allowed type), delivery of the
base64-encoded pieces via `file_chunk` in that permutation, and a final
`file_upload_complete`, the Host receives
`file_command{command:'file_receive'}` whose `fileData` is the base64
encoding of the original byte string, and the uploader receives
`file_upload_success`. -/
theorem fileUploadRoundTrip
    (bytes : List Nat) (hbytes : ∀ b ∈ bytes, b < 256)
    (pieces : List (List Nat)) (hjoin : pieces.flatten = bytes)
    (perm : List Nat) (hperm : perm.Perm (List.range pieces.length))
    (st0 : SSt) (cws : Nat) (ci : ClientInfo)
    (hci : lookupA st0.clients cws = some ci)
    (comp : ComputerRec)
    (hcomp : lookupA st0.computers ci.password = some comp)
    (hopen : comp.ws ∈ st0.openWs)
    (fn ty tid : String) (sz t0 tEnd : Nat) (fs00 : FileHandler.FState)
    (hsz : sz ≤ FileHandler.MAX_FILE_SIZE)
    (hty : FileHandler.isValidFileType ty = true)
    (hfiles : st0.files =
      (FileHandler.startUpload fn sz ty ci.password tid t0 fs00).1) :
    (FileHandler.startUpload fn sz ty ci.password tid t0 fs00).2.success
      = true ∧
    (handleFileUploadComplete
        (perm.foldl
          (fun s i => (handleFileChunk s cws tid i
            (Base64.encode (pieces.getD i []))).1) st0)
        cws tid tEnd).2 =
      [Out.send comp.ws
        (Frame.fileCommandReceive tid fn (Base64.encode bytes) sz),
       Out.send cws (Frame.fileUploadSuccess tid fn)] := by
  have hstart := FileHandler.startUpload_ok fn sz ty ci.password tid t0 fs00
    hsz hty
  constructor
  · rw [hstart]
  · have hfold := handleFileChunk_foldl perm
      (fun i => Base64.encode (pieces.getD i [])) cws tid ci st0 hci
    rw [hfold]
    have ht0 : lookupA st0.files.activeTransfers tid =
        some ⟨tid, fn, sz, ty, "upload", ci.password, [], 0, t0,
              "pending", none⟩ := by
      rw [hfiles, hstart]
      exact AList.lookupA_setA_self _ _ _
    have hpairs : perm.foldl
        (fun f i => (FileHandler.receiveChunk f tid i
          (Base64.encode (pieces.getD i []))).1) st0.files
        = (perm.map (fun i => (i, Base64.encode (pieces.getD i [])))).foldl
            (fun f d => (FileHandler.receiveChunk f tid d.1 d.2).1)
            st0.files := by
      rw [List.foldl_map]
    obtain ⟨t', h1, h2, h3, h4, h5, h6, h7⟩ :=
      FileHandler.receiveChunk_fold
        (perm.map fun i => (i, Base64.encode (pieces.getD i []))) tid
        st0.files
        ⟨tid, fn, sz, ty, "upload", ci.password, [], 0, t0, "pending", none⟩
        ht0 (by dsimp only; decide)
    dsimp only at h2 h3 h4 h5 h7
    have h1' : lookupA (perm.foldl
        (fun f i => (FileHandler.receiveChunk f tid i
          (Base64.encode (pieces.getD i []))).1) st0.files).activeTransfers
        tid = some t' := by
      rw [hpairs]
      exact h1
    have hnd : perm.Nodup := hperm.nodup_iff.2 (List.nodup_range _)
    have hmem : ∀ j, j ∈ perm ↔ j < pieces.length := fun j => by
      rw [hperm.mem_iff, List.mem_range]
    have hclean : ((perm.map fun i =>
          (i, Base64.encode (pieces.getD i []))).foldl
        (fun cs d => FileHandler.setChunk cs d.1 (Base64.decode d.2))
        ([] : List (Option (List Nat))))
        = perm.foldl (fun cs i => FileHandler.setChunk cs i
            (Base64.decode (Base64.encode (pieces.getD i [])))) [] := by
      rw [List.foldl_map]
    have hchunks : t'.chunks = pieces.map some := by
      rw [h2, hclean]
      apply FileHandler.eq_map_some_of_reads
      · have hle : (perm.foldl (fun cs i => FileHandler.setChunk cs i
            (Base64.decode (Base64.encode (pieces.getD i [])))) []).length ≤
            pieces.length :=
          FileHandler.foldl_setChunk_length_le perm
            (fun i => Base64.decode (Base64.encode (pieces.getD i []))) []
            pieces.length (fun i hi => by have := (hmem i).1 hi; omega)
            (by simp)
        rcases Nat.eq_zero_or_pos pieces.length with hz | hpos
        · omega
        · have hge : pieces.length - 1 + 1 ≤ (perm.foldl
              (fun cs i => FileHandler.setChunk cs i
                (Base64.decode (Base64.encode (pieces.getD i [])))) []).length :=
            FileHandler.foldl_setChunk_length_ge perm
              (fun i => Base64.decode (Base64.encode (pieces.getD i []))) []
              (pieces.length - 1) ((hmem _).2 (by omega))
          omega
      · intro j hj
        rw [FileHandler.foldl_setChunk_read perm _ [] j hnd,
          if_pos ((hmem j).2 hj)]
        have hgd : pieces.getD j [] = pieces.get ⟨j, hj⟩ := by
          rw [List.getD_eq_getElem pieces [] hj]
          rfl
        rw [hgd]
        refine congrArg some (Base64.decode_encode _ ?_)
        intro x hx
        exact hbytes x
          (hjoin ▸ List.mem_flatten.2 ⟨_, List.get_mem pieces j hj, hx⟩)
    have hcu := FileHandler.completeUpload_snd _ tid tEnd t' h1'
    unfold handleFileUploadComplete
    dsimp only
    rw [hci]
    dsimp only
    rw [hcu]
    dsimp only
    rw [if_pos rfl]
    dsimp only
    rw [hcomp]
    dsimp only
    rw [if_pos hopen]
    rw [hchunks, FileHandler.filterMap_id_map_some, hjoin, h3, h4]
    rfl

end Relay

namespace Relay

theorem fileUploadRoundTrip_witness :
    (FileHandler.startUpload "a.txt" 10 "text/plain" "alfa" "T" 0
      ⟨[], []⟩).2.success = true ∧
    (handleFileUploadComplete
        ([1, 0].foldl
          (fun s i => (handleFileChunk s 2 "T" i
            (Base64.encode
              ([[48, 49, 50, 51, 52], [53, 54, 55, 56, 57]].getD i []))).1)
          exampleUploadState)
        2 "T" 7).2 =
      [Out.send 1 (Frame.fileCommandReceive "T" "a.txt"
        (Base64.encode [48, 49, 50, 51, 52, 53, 54, 55, 56, 57]) 10),
       Out.send 2 (Frame.fileUploadSuccess "T" "a.txt")] :=
  fileUploadRoundTrip [48, 49, 50, 51, 52, 53, 54, 55, 56, 57] (by decide)
    [[48, 49, 50, 51, 52], [53, 54, 55, 56, 57]] rfl [1, 0] (by decide)
    exampleUploadState 2 ⟨"sess1", "alfa", "d", false⟩ (by decide)
    ⟨1, "i", [2]⟩ (by decide) (by decide)
    "a.txt" "text/plain" "T" 10 0 7 ⟨[], []⟩ (by decide) (by decide) rfl

end Relay

namespace Relay

/-- C1, counterexample: with the Host `h1` live on transport 1 under
password `alpha`, a new `register_computer` from transport 3 replies
`registered{success:true}` to the newcomer and rebinds the password,
but the old Host receives neither the `replaced` notice nor a close —
the v3.3 handler silently overwrites the record. -/
theorem registerComputerNoReplacedNotice :
    (handleRegisterComputer exampleHostState 3 "alpha" "h2").2 =
      [Out.send 3 (Frame.registered true)] ∧
    Out.send 1 (Frame.replaced "Another computer connected with same password")
      ∉ (handleRegisterComputer exampleHostState 3 "alpha" "h2").2 ∧
    Out.close 1 ∉ (handleRegisterComputer exampleHostState 3 "alpha" "h2").2 ∧
    lookupA (handleRegisterComputer exampleHostState 3 "alpha" "h2").1.computers
      "alpha" = some ⟨3, "h2", []⟩ := by
  decide

/-- C1, amended: for every format-valid password, `register_computer`
installs the new Host record with an empty controller set, rebinds the
password to the new transport, and replies `registered{success:true}` —
and these are the only emissions: any previously registered Host is
overwritten without a `replaced` notice and without being closed. -/
theorem registerComputerSilentOverwrite (st : SSt) (ws : Nat)
    (password info : String) (hv : Auth.validatePassword password = true) :
    handleRegisterComputer st ws password info =
      ({ st with computers := (setA st.computers password ⟨ws, info, []⟩),
                 compPw := (setA st.compPw ws password) },
       [Out.send ws (Frame.registered true)]) := by
  unfold handleRegisterComputer
  rw [if_neg (by simp [hv])]

theorem registerComputerSilentOverwrite_witness :
    handleRegisterComputer exampleHostState 3 "alpha" "h2" =
      ({ exampleHostState with
          computers := (setA exampleHostState.computers "alpha" ⟨3, "h2", []⟩),
          compPw := (setA exampleHostState.compPw 3 "alpha") },
       [Out.send 3 (Frame.registered true)]) :=
  registerComputerSilentOverwrite exampleHostState 3 "alpha" "h2" (by decide)

/-- C2: the v3.3 server calls `fileHandler.startUpload(clientInfo.password,
{fileName, fileSize, fileType})` against the module signature
`startUpload(fileName, fileSize, fileType, password)`. The options
object lands in `fileSize` (NaN under `>`, so the size guard never
fires) and `fileType` is `undefined`, so
`mimeType.startsWith('text/')` throws a `TypeError` on every call: no
`file_upload_ready` reply — success or error — is ever produced. -/
theorem fileUploadStartAlwaysThrows (clientPassword fileName : String)
    (fileSize : Nat) (fileType newId : String) :
    JSCall.handleFileUploadStart clientPassword fileName fileSize fileType
      newId =
      .error "TypeError: mimeType.startsWith is not a function" := rfl

/-- C3: `!sessions.validateSession(...)` tests the truthiness of the
returned object, which is always truthy, so the `session_expired`
branch of `handleRelay` is dead: on a state whose session is
idle-expired the relay still forwards `command{sessionId, data}` to the
Host, and no `session_expired` frame is ever emitted. -/
theorem expiredSessionStillForwarded (payload : String) :
    (handleRelay exampleExpiredState 2 payload
      (Sessions.SESSION_TIMEOUT + 1)).2 =
      [Out.send 1 (Frame.command "sess1" payload)] ∧
    ∀ w m, Out.send w (Frame.sessionExpired m) ∉
      (handleRelay exampleExpiredState 2 payload
        (Sessions.SESSION_TIMEOUT + 1)).2 := by
  have h : (handleRelay exampleExpiredState 2 payload
      (Sessions.SESSION_TIMEOUT + 1)).2 =
      [Out.send 1 (Frame.command "sess1" payload)] := rfl
  refine ⟨h, ?_⟩
  intro w m hmem
  rw [h] at hmem
  simp at hmem

/-- C9: the v3.3 server calls `sessions.kickSession(clientInfo.password,
data.sessionId)` against the module signature
`kickSession(sessionId, kickerInfo)`, so it tries to destroy a session
whose id is the caller's *password* (absent here), and then reads
`.success` off the primitive boolean, which is `undefined` and falsy.
The target session `sess_t` survives untouched, its transport receives
no `session_expired` and is not closed, and the reply is a bare
`kick_result` with no success field. -/
theorem kickSessionNeverKicks :
    (handleKickSession exampleKickState 2 "sess_t").1 = exampleKickState ∧
    (handleKickSession exampleKickState 2 "sess_t").2 =
      [Out.send 2 (Frame.kickResult none)] ∧
    lookupA (handleKickSession exampleKickState 2
      "sess_t").1.sessions.sessions "sess_t" =
      some ⟨"sess_t", "alfa", "d", 0, 0, true, some 3⟩ := by
  decide

end Relay

namespace Relay

/-- C5: when a password holds at least `MAX_FAILED_ATTEMPTS` failed
attempts and less than `LOCKOUT_DURATION` has passed since the last
one, `connect_to_computer` is rejected with the
`Too many attempts. Try again in N minutes` error
(`N = ceil(remaining/60000)`) and the server state is returned exactly
unchanged: no session is created, no controller attached, and the Host
record — registered or not — is untouched. -/
theorem lockoutRejectsConnect (st : SSt) (ws : Nat) (password : String)
    (trustDevice : Bool) (deviceInfo freshSid freshDevId : String)
    (now : Nat) (att : Auth.Attempts)
    (hatt : lookupA st.auth.failedAttempts password = some att)
    (hcount : Auth.MAX_FAILED_ATTEMPTS ≤ att.count)
    (hwin : now - att.lastAttempt < Auth.LOCKOUT_DURATION) :
    handleConnectToComputer st ws password trustDevice deviceInfo
      freshSid freshDevId now =
      (st, [Out.send ws (Frame.error ("Too many attempts. Try again in " ++
        toString ((Auth.LOCKOUT_DURATION - (now - att.lastAttempt) + 59999)
          / 60000) ++ " minutes"))]) := by
  have hcl : Auth.checkLockout st.auth password now =
      (st.auth, ⟨true,
        (Auth.LOCKOUT_DURATION - (now - att.lastAttempt) + 59999) / 60000⟩)
      := by
    unfold Auth.checkLockout
    rw [hatt]
    dsimp only
    rw [if_pos hcount, if_pos hwin]
  unfold handleConnectToComputer
  rw [hcl]
  rfl

theorem lockoutRejectsConnect_witness :
    handleConnectToComputer exampleLockoutState 4 "zzzz" false "d" "sid"
      "dev" 0 =
      (exampleLockoutState, [Out.send 4 (Frame.error
        "Too many attempts. Try again in 15 minutes")]) :=
  lockoutRejectsConnect exampleLockoutState 4 "zzzz" false "d" "sid" "dev" 0
    ⟨5, 0⟩ (by decide) (by decide) (by decide)

end Relay

namespace Relay

theorem matchesRequester_iff (cl : List (Nat × ClientInfo)) (rid : String)
    (w : Nat) :
    matchesRequester cl rid w = true ↔
      ∃ i, lookupA cl w = some i ∧ i.sessionId = rid := by
  unfold matchesRequester
  cases hl : lookupA cl w with
  | none => simp
  | some i => simp

/-- The shared filterMap of the directed handlers, as a filter of the
controller list followed by a map. -/
theorem filterMap_directed (l : List Nat) (cl : List (Nat × ClientInfo))
    (rid : String) (f : Nat → Out) :
    (l.filterMap fun w => match lookupA cl w with
      | some info => if info.sessionId = rid then some (f w) else none
      | none => none) =
    (l.filter (matchesRequester cl rid)).map f := by
  induction l with
  | nil => rfl
  | cons x t ih =>
    simp only [List.filterMap_cons, List.filter_cons]
    cases hl : lookupA cl x with
    | none => simp [matchesRequester, hl, ih]
    | some info =>
      by_cases hs : info.sessionId = rid
      · simp [matchesRequester, hl, hs, ih]
      · simp [matchesRequester, hl, hs, ih]

theorem length_le_one_of_allEq (l : List Nat) (hnd : l.Nodup)
    (h : ∀ a ∈ l, ∀ b ∈ l, a = b) : l.length ≤ 1 := by
  rcases l with _ | ⟨a, _ | ⟨b, t⟩⟩
  · simp
  · simp
  · exfalso
    have hab : a = b := h a (by simp) b (by simp)
    subst hab
    simp at hnd

/-- C8: for every Host response carrying a `requesterId`
(`browse_result_relay`, `file_download_response`,
`file_operation_result`, `watcher_result`, `watched_folders`), when the
attached Controllers carry pairwise-distinct session ids, all five
handlers deliver their translated frame to the same list of at most one
transport: exactly the connected Controller whose `sessionId` equals
`requesterId`, and no one when no attached Controller matches. -/
theorem directedDeliveryUnique (st : SSt) (ws : Nat) (cpw : String)
    (comp : ComputerRec) (requesterId : String)
    (success : Bool) (path items : String) (error : Option String)
    (fileName fileData : String) (operation watcherId folders : String)
    (hcpw : lookupA st.compPw ws = some cpw)
    (hcomp : lookupA st.computers cpw = some comp)
    (hnd : comp.connectedClients.Nodup)
    (hsid : (st.clients.map (fun e => e.2.sessionId)).Nodup) :
    ∃ ms : List Nat,
      handleBrowseResultRelay st ws requesterId success path items error =
        ms.map (fun w => Out.send w
          (Frame.browseResult success path items error)) ∧
      handleFileDownloadResponse st ws requesterId fileName fileData error =
        ms.map (fun w => Out.send w
          (Frame.fileDownloadData fileName fileData error)) ∧
      handleFileOperationResult st ws requesterId operation success error
          path =
        ms.map (fun w => Out.send w
          (Frame.fileOperationResult operation success error path)) ∧
      handleWatcherResultRelay st ws requesterId success watcherId path
          error =
        ms.map (fun w => Out.send w
          (Frame.watcherResult success watcherId path error)) ∧
      handleWatchedFoldersRelay st ws requesterId folders =
        ms.map (fun w => Out.send w (Frame.watchedFolders folders)) ∧
      ms.length ≤ 1 ∧
      (∀ w, w ∈ ms ↔ w ∈ comp.connectedClients ∧
        ∃ i, lookupA st.clients w = some i ∧
          i.sessionId = requesterId) := by
  refine ⟨comp.connectedClients.filter
    (matchesRequester st.clients requesterId), ?_, ?_, ?_, ?_, ?_, ?_, ?_⟩
  · unfold handleBrowseResultRelay
    rw [hcpw]
    dsimp only
    rw [hcomp]
    dsimp only
    exact filterMap_directed _ _ _ _
  · unfold handleFileDownloadResponse
    rw [hcpw]
    dsimp only
    rw [hcomp]
    dsimp only
    exact filterMap_directed _ _ _ _
  · unfold handleFileOperationResult
    rw [hcpw]
    dsimp only
    rw [hcomp]
    dsimp only
    exact filterMap_directed _ _ _ _
  · unfold handleWatcherResultRelay
    rw [hcpw]
    dsimp only
    rw [hcomp]
    dsimp only
    exact filterMap_directed _ _ _ _
  · unfold handleWatchedFoldersRelay
    rw [hcpw]
    dsimp only
    rw [hcomp]
    dsimp only
    exact filterMap_directed _ _ _ _
  · apply length_le_one_of_allEq
    · exact hnd.filter _
    · intro a ha b hb
      obtain ⟨hal, hap⟩ := List.mem_filter.1 ha
      obtain ⟨hbl, hbp⟩ := List.mem_filter.1 hb
      obtain ⟨ia, hia, hsa⟩ := (matchesRequester_iff _ _ _).1 hap
      obtain ⟨ib, hib, hsb⟩ := (matchesRequester_iff _ _ _).1 hbp
      have hma := AList.mem_of_lookupA_eq_some st.clients a ia hia
      have hmb := AList.mem_of_lookupA_eq_some st.clients b ib hib
      have hpair : (a, ia) = (b, ib) :=
        List.inj_on_of_nodup_map hsid hma hmb (by simp [hsa, hsb])
      exact congrArg Prod.fst hpair
  · intro w
    rw [List.mem_filter, matchesRequester_iff]

theorem directedDeliveryUnique_witness :
    ∃ ms : List Nat,
      handleBrowseResultRelay exampleDirectedState 1 "sB" true "/p" "it"
          none =
        ms.map (fun w => Out.send w
          (Frame.browseResult true "/p" "it" none)) ∧
      handleFileDownloadResponse exampleDirectedState 1 "sB" "f" "x" none =
        ms.map (fun w => Out.send w (Frame.fileDownloadData "f" "x" none)) ∧
      handleFileOperationResult exampleDirectedState 1 "sB" "op" true none
          "/p" =
        ms.map (fun w => Out.send w
          (Frame.fileOperationResult "op" true none "/p")) ∧
      handleWatcherResultRelay exampleDirectedState 1 "sB" true "w1" "/p"
          none =
        ms.map (fun w => Out.send w
          (Frame.watcherResult true "w1" "/p" none)) ∧
      handleWatchedFoldersRelay exampleDirectedState 1 "sB" "fl" =
        ms.map (fun w => Out.send w (Frame.watchedFolders "fl")) ∧
      ms.length ≤ 1 ∧
      (∀ w, w ∈ ms ↔ w ∈ ([2, 3] : List Nat) ∧
        ∃ i, lookupA exampleDirectedState.clients w = some i ∧
          i.sessionId = "sB") :=
  directedDeliveryUnique exampleDirectedState 1 "alfa" ⟨1, "i", [2, 3]⟩ "sB"
    true "/p" "it" none "f" "x" "op" "w1" "fl" (by decide) (by decide)
    (by decide) (by decide)

end Relay
